import Mathlib

/-!
Verification development for the scrypted-osd-manager plugin.

The repository is TypeScript; the definitions below are a shallow embedding
of its core functions.  Numbers are modelled as rationals (the JavaScript
arithmetic used by the plugin stays within exact decimal fractions on the
inputs of interest), strings as Lean `String` / `List Char`.
-/

namespace OsdManager

/-- Embedding of `formatValue` (src/src/utils.ts, and the utils revision in
src/src/main.ts):
`const factor = Math.pow(10, maxDecimals); return Math.floor(Number(value ?? 0) * factor) / factor;`
`Math.floor` rounds toward negative infinity. -/
def formatValue (value : ℚ) (maxDecimals : ℕ) : ℚ :=
  ((⌊value * (10 : ℚ) ^ maxDecimals⌋ : ℤ) : ℚ) / (10 : ℚ) ^ maxDecimals

/-- Modelled from the spec: "truncation toward zero" of a value at
`maxDecimals` decimal places.  Truncation toward zero keeps the integer part
of `value * 10 ^ maxDecimals` (floor for non-negative arguments, ceiling for
negative ones).  This definition follows the spec's words and is compared
against `formatValue`, which is translated from the source. -/
def truncTowardZero (value : ℚ) (maxDecimals : ℕ) : ℚ :=
  (((if 0 ≤ value * (10 : ℚ) ^ maxDecimals
      then ⌊value * (10 : ℚ) ^ maxDecimals⌋
      else ⌈value * (10 : ℚ) ^ maxDecimals⌉) : ℤ) : ℚ) / (10 : ℚ) ^ maxDecimals

/-- Embedding of JavaScript `text.substring(0, n)` (negative bounds are
clamped to `0`, which matches truncated subtraction on `ℕ`). -/
def jsSubstring (s : String) (n : ℕ) : String :=
  String.mk (s.data.take n)

/-- Embedding of `limitText` (src/unnamed/part_001, lines 215-230).
`maxCharacters` is `number | undefined` in the source; `none` models
`undefined` and `some 0` models the falsy value `0`:
`if (!maxCharacters) return text; else if (text.length <= maxCharacters) return text; else return text.substring(0, maxCharacters - 3) + "..."`. -/
def limitText (text : String) (maxCharacters : Option ℕ) : String :=
  match maxCharacters with
  | none => text
  | some m =>
    if m = 0 then text
    else if text.length ≤ m then text
    else jsSubstring text (m - 3) ++ "..."

/-- A JavaScript value as produced by the render pipeline: a number or a
string. -/
inductive JSVal
  | num (q : ℚ)
  | str (s : String)
deriving DecidableEq

/-- One entry of an `ObjectsDetected.detections` array (only the fields the
plugin reads). -/
structure Detection where
  className : String
  label : Option String
deriving DecidableEq

/-- One entry of a `Sensors` device's `sensors` map (only the fields the
plugin reads). -/
structure SensorData where
  name : String
  value : Option JSVal
  unit : Option String
deriving DecidableEq

/-- The `data` argument flowing into `parseOverlayData` /
`updateOverlayData`: a number, string, boolean, detection list, sensor
record, or `undefined`. -/
inductive OverlayData
  | num (q : ℚ)
  | str (s : String)
  | bool (b : Bool)
  | dets (l : List Detection)
  | sensor (sd : SensorData)
  | undef
deriving DecidableEq

/-- JavaScript truthiness of an `OverlayData` value (`NaN` is not
modelled; the plugin never branches on it). -/
def jsTruthy : OverlayData → Bool
  | .num q => if q = 0 then false else true
  | .str s => s ≠ ""
  | .bool b => b
  | .dets _ => true
  | .sensor _ => true
  | .undef => false

/-- `Number(x)` coercion for the numeric branches of `parseOverlayData`
(the callers always pass numbers there; `undefined ?? 0` yields `0`). -/
def jsNumberOf : OverlayData → ℚ
  | .num q => q
  | .bool b => if b then 1 else 0
  | _ => 0

/-- The plugin-scoped configured phrases
(`OsdManagerProvider.initStorage` in src/src/main.ts, lines 9-45). -/
structure PluginTexts where
  lockText : String
  unlockText : String
  openText : String
  closedText : String
  jammedText : String
deriving DecidableEq

/-- The scrypted SDK enum value `LockState.Locked`. -/
def lockStateLocked : String := "Locked"

/-- Embedding of `getEntryText` (utils revision in src/src/main.ts, lines
600-604). -/
def getEntryText (data : OverlayData) (p : PluginTexts) : String :=
  if data = .str "jammed" then p.jammedText
  else if jsTruthy data then p.openText else p.closedText

/-- Embedding of `getBinaryText` (utils revision in src/src/main.ts, lines
606-608). -/
def getBinaryText (data : OverlayData) (p : PluginTexts) : String :=
  if jsTruthy data then p.openText else p.closedText

/-- Embedding of `getLockText` (utils revision in src/src/main.ts, lines
610-614):
`data === 'jammed' ? jammedText : (data === LockState.Locked ? lockText : unlockText)`. -/
def getLockText (data : OverlayData) (p : PluginTexts) : String :=
  if data = .str "jammed" then p.jammedText
  else if data = .str lockStateLocked then p.lockText else p.unlockText

/-- The `ListenerType` enum (utils revision in src/src/main.ts, lines
280-291). -/
inductive ListenerTypeE
  | Face
  | Humidity
  | Temperature
  | Lock
  | Battery
  | Sleep
  | Entry
  | Sensors
  | Interval
  | Binary
deriving DecidableEq

/-- The `OverlayType` enum (src/src/utils.ts, lines 13-20). -/
inductive OverlayTypeE
  | Disabled
  | Text
  | Device
  | Template
  | FaceDetection
  | BatteryLeft
deriving DecidableEq

/-- The `Overlay` record read from per-overlay storage by `getOverlay`
(utils revision in src/src/main.ts, lines 548-593).  Absent storage keys
are `none`; `maxDecimals` carries its schema default 1 when unset. -/
structure Overlay where
  currentText : Option String := none
  text : Option String := none
  type : Option OverlayTypeE := none
  device : Option String := none
  regex : Option String := none
  maxCharacters : Option ℕ := none
  maxDecimals : ℕ := 1
  unit : Option String := none
  sensorId : Option String := none
  sensorName : Option String := none
  template : Option String := none
deriving DecidableEq

/-- The slice of a scrypted device visible to the plugin through
`sdk.systemManager`: interface flags plus the current sensor values the
plugin reads. -/
structure DeviceState where
  id : String
  hasSensors : Bool := false
  sensors : List (String × SensorData) := []
  hasThermometer : Bool := false
  temperature : ℚ := 0
  temperatureUnit : Option String := none
  hasHumidity : Bool := false
  humidity : ℚ := 0
  hasLock : Bool := false
  lockState : String := ""
  hasEntry : Bool := false
  entryOpen : Bool := false
  hasBinary : Bool := false
  binaryState : Bool := false
  batteryLevel : ℚ := 0
  strippedNativeId : String := ""
deriving DecidableEq

/-- External collaborators of the mixin: the system manager's device
lookup, the external `UnitConverter.siToLocal` (from the
scrypted-homeassistant repository, outside this one), and the plugin
texts. -/
structure CameraEnv where
  findDevice : String → Option DeviceState
  siToLocal : ℚ → Option String → ℚ
  texts : PluginTexts

/-- Embedding of JavaScript `s.replace(pat, repl)` with a string pattern:
replace the first (leftmost) occurrence only.  The plugin only uses the
non-empty patterns `"$\x7bvalue\x7d"` and `"$\x7bunit\x7d"`. -/
def replaceFirstList (s pat repl : List Char) : List Char :=
  match s with
  | [] => []
  | c :: cs =>
    if pat.isPrefixOf (c :: cs) then repl ++ (c :: cs).drop pat.length
    else c :: replaceFirstList cs pat repl

/-- The regex-template substitution of `parseOverlayData`:
`regex.replace('$\x7bvalue\x7d', value ?? '').replace('$\x7bunit\x7d', unit ?? '')`. -/
def applyRegex (regex : String) (valueStr unitStr : String) : String :=
  String.mk (replaceFirstList
    (replaceFirstList regex.data ("$\x7bvalue\x7d").data valueStr.data)
    ("$\x7bunit\x7d").data unitStr.data)

/-- Zero-pad a digit list on the left to length `d`. -/
def padZeros (l : List Char) (d : ℕ) : List Char :=
  List.replicate (d - l.length) '0' ++ l

/-- Drop trailing zero digits. -/
def stripTrailZeros (l : List Char) : List Char :=
  ((l.reverse).dropWhile (fun c => c = '0')).reverse

/-- Decimal rendering of `String(value)` for a JavaScript number that is an
exact multiple of `10 ^ (-d)`; every number the plugin prints is the result
of `formatValue _ d`, so this covers the values that reach `String(...)`. -/
def jsNumToChars (q : ℚ) (d : ℕ) : List Char :=
  let n : ℤ := ⌊q * (10 : ℚ) ^ d⌋
  let m : ℕ := n.natAbs
  let ip : ℕ := m / 10 ^ d
  let fp : ℕ := m % 10 ^ d
  let frac : List Char := stripTrailZeros (padZeros (Nat.toDigits 10 fp) d)
  (if n < 0 then ['-'] else []) ++ Nat.toDigits 10 ip ++
    (if frac.isEmpty then [] else '.' :: frac)

/-- `String(value ?? '')` for the regex substitution, printing numbers at
the overlay's decimal precision. -/
def jsValToString (v : Option JSVal) (maxDecimals : ℕ) : String :=
  match v with
  | none => ""
  | some (.num q) => String.mk (jsNumToChars q maxDecimals)
  | some (.str s) => s

/-- Embedding of `parseOverlayData` (utils revision in src/src/main.ts,
lines 616-675), returning `(textToUpdate, value)`.  `Except.error` models
the `TypeError` thrown when `listenerType` is `Temperature` and the bound
device cannot be found (`realDevice.temperatureUnit` with `realDevice`
`undefined`); the caller catches it. -/
def parseOverlayData (env : CameraEnv) (overlay : Overlay)
    (listenerType : Option ListenerTypeE) (data : OverlayData) :
    Except Unit (Option String × Option JSVal) :=
  let maxDecimals := overlay.maxDecimals
  let realDevice := overlay.device.bind env.findDevice
  let core : Except Unit (Option String × Option JSVal × Option String) :=
    if listenerType = some ListenerTypeE.Face then
      Except.ok (none,
        (match data with
          | .dets l =>
            ((l.find? (fun det => det.className = "face")).bind
              Detection.label).map JSVal.str
          | _ => none),
        none)
    else if listenerType = some ListenerTypeE.Temperature then
      match realDevice with
      | none => Except.error ()
      | some rd =>
        let unit := rd.temperatureUnit.getD "C"
        let v0 := jsNumberOf data
        let v1 := if unit = "F" then v0 * 9 / 5 + 32 else v0
        Except.ok (none, some (JSVal.num (formatValue v1 maxDecimals)), some unit)
    else if listenerType = some ListenerTypeE.Humidity then
      Except.ok (none, some (JSVal.num (formatValue (jsNumberOf data) maxDecimals)), some "%")
    else if listenerType = some ListenerTypeE.Battery then
      Except.ok (none, some (JSVal.num (formatValue (jsNumberOf data) maxDecimals)), some "%")
    else if listenerType = some ListenerTypeE.Lock then
      Except.ok (none, some (JSVal.str (getLockText data env.texts)), none)
    else if listenerType = some ListenerTypeE.Entry then
      Except.ok (none, some (JSVal.str (getEntryText data env.texts)), none)
    else if listenerType = some ListenerTypeE.Binary then
      Except.ok (none, some (JSVal.str (getBinaryText data env.texts)), none)
    else if listenerType = some ListenerTypeE.Sensors then
      match data with
      | .num q =>
        Except.ok (none,
          some (JSVal.num (formatValue (env.siToLocal q overlay.unit) maxDecimals)),
          overlay.unit)
      | .sensor sd =>
        let unit := match overlay.unit with | some u => some u | none => sd.unit
        let localValue := match sd.value with
          | some (.num q) => env.siToLocal q unit
          | _ => 0
        Except.ok (none, some (JSVal.num (formatValue localValue maxDecimals)), unit)
      | _ =>
        Except.ok (none, some (JSVal.num (formatValue 0 maxDecimals)), overlay.unit)
    else if overlay.type = some OverlayTypeE.Text then
      Except.ok (overlay.text, none, none)
    else
      Except.ok (none, none, none)
  match core with
  | Except.error e => Except.error e
  | Except.ok (t0, value, unit) =>
    let regexOk : Bool := match overlay.regex with
      | some r => if r = "" then false else true
      | none => false
    let t := if value.isSome && regexOk then
        some (applyRegex ((overlay.regex).getD "")
          (jsValToString value maxDecimals) (unit.getD ""))
      else t0
    Except.ok (t, value)

/-- A write issued to the camera's `setVideoTextOverlay`: either a text
update, or the clear/disable signal `\x7b text: false \x7d`. -/
inductive Write
  | setText (overlayId : String) (text : String)
  | clear (overlayId : String)
deriving DecidableEq

/-- Embedding of `updateOverlayData` (src/unnamed/part_001, lines 322-361)
as the list of writes it issues: nothing while the camera sleeps; nothing
when parsing throws (caught); nothing for a Face update with no value; a
truncated set-text write for truthy text; the clear signal for a
`Disabled` overlay; nothing otherwise. -/
def updateOverlayDataWrites (env : CameraEnv) (sleeping : Bool)
    (overlay : Overlay) (overlayId : String)
    (listenerType : Option ListenerTypeE) (data : OverlayData) : List Write :=
  if sleeping then []
  else
    match parseOverlayData env overlay listenerType data with
    | Except.error _ => []
    | Except.ok (textToUpdate, value) =>
      if value = none ∧ listenerType = some ListenerTypeE.Face then []
      else
        match textToUpdate with
        | some t =>
          if t = "" then
            if overlay.type = some OverlayTypeE.Disabled then [Write.clear overlayId]
            else []
          else [Write.setText overlayId (limitText t overlay.maxCharacters)]
        | none =>
          if overlay.type = some OverlayTypeE.Disabled then [Write.clear overlayId]
          else []

lemma length_mk (l : List Char) : (String.mk l).length = l.length := rfl

lemma mk_append_mk (a b : List Char) : String.mk a ++ String.mk b = String.mk (a ++ b) := rfl

lemma string_length_data (s : String) : s.length = s.data.length := rfl

end OsdManager

namespace OsdManager

/-- C1 counterexample: at `value = -1/2`, `maxDecimals = 0` the code's
`formatValue` (which floors) returns `-1`, while truncation toward zero
would return `0`; so `formatValue` does not perform truncation toward zero. -/
theorem formatValue_not_trunc_toward_zero :
    formatValue (-(1 : ℚ)/2) 0 = -1 ∧ truncTowardZero (-(1 : ℚ)/2) 0 = 0 ∧
    formatValue (-(1 : ℚ)/2) 0 ≠ truncTowardZero (-(1 : ℚ)/2) 0 := by
  have h1 : formatValue (-(1 : ℚ)/2) 0 = -1 := by norm_num [formatValue]
  have h2 : truncTowardZero (-(1 : ℚ)/2) 0 = 0 := by
    norm_num [truncTowardZero, Int.ceil_neg]
  exact ⟨h1, h2, by rw [h1, h2]; norm_num⟩

/-- C1 (amended): for every rational `v` and `d : ℕ`, `formatValue v d`
equals `⌊v * 10 ^ d⌋ / 10 ^ d`; it is the greatest multiple of `10 ^ (-d)`
not exceeding `v` (truncation toward negative infinity, not
round-to-nearest), which agrees with truncation toward zero exactly for
non-negative `v`; and `formatValue 2.999 2 = 2.99`. -/
theorem formatValue_floor_semantics (v : ℚ) (d : ℕ) :
    formatValue v d = ((⌊v * (10 : ℚ) ^ d⌋ : ℤ) : ℚ) / (10 : ℚ) ^ d ∧
    formatValue v d ≤ v ∧
    v - formatValue v d < ((10 : ℚ) ^ d)⁻¹ ∧
    (0 ≤ v → formatValue v d = truncTowardZero v d) ∧
    formatValue (2999/1000) 2 = 299/100 := by
  have hp : (0 : ℚ) < (10 : ℚ) ^ d := by positivity
  refine ⟨rfl, ?_, ?_, ?_, by norm_num [formatValue]⟩
  · rw [formatValue, div_le_iff₀ hp]
    exact Int.floor_le _
  · have key : v * (10 : ℚ) ^ d < (⌊v * (10 : ℚ) ^ d⌋ : ℚ) + 1 :=
      Int.lt_floor_add_one _
    have h2 : v - formatValue v d =
        (v * (10 : ℚ) ^ d - ((⌊v * (10 : ℚ) ^ d⌋ : ℤ) : ℚ)) / (10 : ℚ) ^ d := by
      rw [formatValue]
      field_simp
    rw [h2, div_lt_iff₀ hp, inv_mul_cancel₀ hp.ne']
    linarith
  · intro hv
    have h0 : 0 ≤ v * (10 : ℚ) ^ d := mul_nonneg hv hp.le
    rw [formatValue, truncTowardZero, if_pos h0]

/-- Witness for `formatValue_floor_semantics`. -/
theorem formatValue_floor_semantics_witness :
    0 ≤ (3 : ℚ) ∧ formatValue 3 1 = truncTowardZero 3 1 :=
  ⟨by norm_num, (formatValue_floor_semantics 3 1).2.2.2.1 (by norm_num)⟩

/-- C5: `limitText` leaves the text unchanged when `maxCharacters` is unset
(`none`) or zero, or when the text's length does not exceed the cap;
otherwise it keeps the first `maxCharacters - 3` characters (truncated
subtraction, matching JavaScript's clamped `substring`) and appends "...". -/
theorem limitText_spec (t : String) (m : ℕ) :
    limitText t none = t ∧
    limitText t (some 0) = t ∧
    (m ≠ 0 → t.length ≤ m → limitText t (some m) = t) ∧
    (m ≠ 0 → m < t.length → limitText t (some m) = jsSubstring t (m - 3) ++ "...") := by
  refine ⟨rfl, rfl, fun h0 hle => ?_, fun h0 hlt => ?_⟩
  · simp [limitText, h0, hle]
  · simp [limitText, h0, Nat.not_le.mpr hlt]

/-- Witness for `limitText_spec`. -/
theorem limitText_spec_witness :
    ((3 : ℕ) ≠ 0 ∧ 3 < ("abcde" : String).length) ∧
    limitText "abcde" (some 3) = jsSubstring "abcde" (3 - 3) ++ "..." :=
  ⟨⟨by decide, by decide⟩, (limitText_spec "abcde" 3).2.2.2 (by decide) (by decide)⟩

/-- C6 counterexample: the code truncates "Temperature: 21.5C" at cap 10 to
"Tempera..." (7 kept characters plus the ellipsis), not "Temperat...". -/
theorem limitText_cap10_counterexample :
    limitText "Temperature: 21.5C" (some 10) = "Tempera..." ∧
    limitText "Temperature: 21.5C" (some 10) ≠ "Temperat..." := by decide

/-- C6 (amended): truncating "Temperature: 21.5C" with cap 10 yields exactly
"Tempera...", whose length is the cap 10. -/
theorem limitText_cap10_example :
    limitText "Temperature: 21.5C" (some 10) = "Tempera..." ∧
    (limitText "Temperature: 21.5C" (some 10)).length = 10 := by decide

/-- C10: when `limitText` truncates (cap set, non-zero, text longer than the
cap), the output length is exactly the cap whenever the cap is at least 3;
for caps 1 and 2 the output is "..." of length 3, which exceeds the cap. -/
theorem limitText_cap_length (t : String) (m : ℕ) (h0 : m ≠ 0)
    (hlt : m < t.length) :
    (3 ≤ m → (limitText t (some m)).length = m) ∧
    ((m = 1 ∨ m = 2) →
      limitText t (some m) = "..." ∧ m < (limitText t (some m)).length) := by
  have hne : ¬ t.length ≤ m := Nat.not_le.mpr hlt
  have hform : limitText t (some m) = jsSubstring t (m - 3) ++ "..." := by
    simp [limitText, h0, hne]
  have hlapp : ∀ (a : List Char) (s : String),
      (String.mk a ++ s).length = a.length + s.length := by
    intro a s
    cases s with
    | mk d => rw [mk_append_mk, length_mk, List.length_append]; rfl
  constructor
  · intro h3
    rw [hform, jsSubstring, hlapp, List.length_take]
    have hd : t.data.length = t.length := rfl
    have hd3 : ("..." : String).length = 3 := rfl
    omega
  · intro hm
    have hz : m - 3 = 0 := by omega
    have hlim : limitText t (some m) = "..." := by
      rw [hform, jsSubstring, hz]
      rfl
    refine ⟨hlim, ?_⟩
    rw [hlim]
    have hd3 : ("..." : String).length = 3 := rfl
    omega

/-- Witness for `limitText_cap_length`. -/
theorem limitText_cap_length_witness :
    ((3 : ℕ) ≠ 0 ∧ 3 < ("abcd" : String).length) ∧
    (limitText "abcd" (some 3)).length = 3 :=
  ⟨⟨by decide, by decide⟩,
    (limitText_cap_length "abcd" 3 (by decide) (by decide)).1 (by decide)⟩

/-- C9: rendering a Lock-bound overlay maps the `LockState.Locked` state to
the configured `lockText`, the unlocked state to `unlockText`, and the
value "jammed" to `jammedText`; the value produced by `parseOverlayData`
for a Lock listener is exactly `getLockText` applied to the event datum. -/
theorem lock_state_mapping (env : CameraEnv) (overlay : Overlay)
    (data : OverlayData) :
    getLockText (.str lockStateLocked) env.texts = env.texts.lockText ∧
    getLockText (.str "Unlocked") env.texts = env.texts.unlockText ∧
    getLockText (.str "jammed") env.texts = env.texts.jammedText ∧
    ∃ t, parseOverlayData env overlay (some ListenerTypeE.Lock) data =
      Except.ok (t, some (JSVal.str (getLockText data env.texts))) := by
  refine ⟨?_, ?_, ?_, ⟨_, rfl⟩⟩
  · rw [getLockText, if_neg (by decide), if_pos rfl]
  · rw [getLockText, if_neg (by decide), if_neg (by decide)]
  · rw [getLockText, if_pos rfl]

lemma parse_face_value_none (env : CameraEnv) (overlay : Overlay)
    (data : OverlayData) (t : Option String)
    (h : parseOverlayData env overlay (some ListenerTypeE.Face) data =
      Except.ok (t, none)) : t = none := by
  cases data <;>
    simp only [parseOverlayData, reduceIte, Option.isSome_none, Bool.false_and,
      if_false, Except.ok.injEq, Prod.mk.injEq] at h
  all_goals
    first
    | exact h.1.symm
    | · obtain ⟨h1, h2⟩ := h
        rw [h2] at h1
        simpa using h1.symm

/-- C8: for a non-sleeping device, one overlay update issues exactly one
set-text write with the final (truncated) string when the render produced
non-empty text; a distinct clear/disable write when no text was produced
and the overlay type is `Disabled`; and no write at all when no text was
produced and the type is not `Disabled`.  (`hface` records that callers
only pass the Face listener for `FaceDetection` overlays.) -/
theorem overlay_write_policy (env : CameraEnv) (overlay : Overlay)
    (overlayId : String) (listenerType : Option ListenerTypeE)
    (data : OverlayData)
    (hface : listenerType = some ListenerTypeE.Face →
      overlay.type ≠ some OverlayTypeE.Disabled) :
    (∀ t v, parseOverlayData env overlay listenerType data = Except.ok (some t, v) →
      t ≠ "" →
      updateOverlayDataWrites env false overlay overlayId listenerType data
        = [Write.setText overlayId (limitText t overlay.maxCharacters)]) ∧
    (∀ t0 v, parseOverlayData env overlay listenerType data = Except.ok (t0, v) →
      (t0 = none ∨ t0 = some "") → overlay.type = some OverlayTypeE.Disabled →
      updateOverlayDataWrites env false overlay overlayId listenerType data
        = [Write.clear overlayId]) ∧
    (∀ t0 v, parseOverlayData env overlay listenerType data = Except.ok (t0, v) →
      (t0 = none ∨ t0 = some "") → overlay.type ≠ some OverlayTypeE.Disabled →
      updateOverlayDataWrites env false overlay overlayId listenerType data = []) := by
  refine ⟨?_, ?_, ?_⟩
  · intro t v hparse hne
    simp only [updateOverlayDataWrites, hparse, Bool.false_eq_true, if_false]
    have hguard : ¬ (v = none ∧ listenerType = some ListenerTypeE.Face) := by
      rintro ⟨hv, hf⟩
      subst hv
      subst hf
      have := parse_face_value_none env overlay data (some t) hparse
      simp at this
    rw [if_neg hguard, if_neg hne]
  · intro t0 v hparse ht0 hdis
    simp only [updateOverlayDataWrites, hparse, Bool.false_eq_true, if_false]
    have hguard : ¬ (v = none ∧ listenerType = some ListenerTypeE.Face) := by
      rintro ⟨_, hf⟩
      exact hface hf hdis
    rw [if_neg hguard]
    rcases ht0 with h | h <;> subst h <;> simp [hdis]
  · intro t0 v hparse ht0 hndis
    simp only [updateOverlayDataWrites, hparse, Bool.false_eq_true, if_false]
    by_cases hguard : v = none ∧ listenerType = some ListenerTypeE.Face
    · rw [if_pos hguard]
    · rw [if_neg hguard]
      rcases ht0 with h | h <;> subst h <;> simp [hndis]

/-- Concrete plugin texts used by witnesses. -/
def sampleTexts : PluginTexts :=
  ⟨"Locked", "Unlocked", "Open", "Closed", "Jammed"⟩

/-- Concrete environment used by witnesses: no external devices, identity
unit conversion. -/
def sampleEnv : CameraEnv :=
  ⟨fun _ => none, fun q _ => q, sampleTexts⟩

/-- Concrete static-text overlay used by witnesses. -/
def sampleTextOverlay : Overlay :=
  { type := some OverlayTypeE.Text, text := some "hi" }

/-- Witness for `overlay_write_policy`. -/
theorem overlay_write_policy_witness :
    updateOverlayDataWrites sampleEnv false sampleTextOverlay "1" none
      (OverlayData.str "")
      = [Write.setText "1" (limitText "hi" sampleTextOverlay.maxCharacters)] :=
  (overlay_write_policy sampleEnv sampleTextOverlay "1" none (OverlayData.str "")
    (fun h => Option.noConfusion h)).1 "hi" none rfl (by decide)

/-- Scanner for `replaceAll`: while the skip counter is positive the
characters of an already-emitted match are passed over; at skip 0 a match
of `pat` emits `repl` and skips the rest of the match. -/
def replAux (pat repl : List Char) : List Char → ℕ → List Char
  | [], _ => []
  | _ :: cs, Nat.succ k => replAux pat repl cs k
  | c :: cs, 0 =>
    if pat.isPrefixOf (c :: cs) then repl ++ replAux pat repl cs (pat.length - 1)
    else c :: replAux pat repl cs 0

/-- Embedding of JavaScript `s.replaceAll(pat, repl)` for a non-empty string
pattern: left-to-right, non-overlapping, the replacement is not rescanned.
(The plugin's patterns are placeholders built around braces, never empty;
for an empty pattern this returns `s` unchanged.) -/
def replaceAll (s pat repl : List Char) : List Char :=
  if pat = [] then s else replAux pat repl s 0

lemma replAux_drop (pat repl : List Char) :
    ∀ (s : List Char) (k : ℕ), replAux pat repl s k = replAux pat repl (s.drop k) 0 := by
  intro s
  induction s with
  | nil =>
    intro k
    rw [List.drop_nil]
    cases k <;> rfl
  | cons c cs ih =>
    intro k
    cases k with
    | zero => rfl
    | succ k =>
      have h1 : replAux pat repl (c :: cs) (k + 1) = replAux pat repl cs k := rfl
      rw [h1, ih k]
      rfl

lemma replaceAll_nil (pat repl : List Char) : replaceAll [] pat repl = [] := by
  rw [replaceAll]
  split <;> rfl

lemma replaceAll_cons_pos (c : Char) (cs pat repl : List Char)
    (h : pat ≠ [] ∧ pat.isPrefixOf (c :: cs)) :
    replaceAll (c :: cs) pat repl
      = repl ++ replaceAll ((c :: cs).drop pat.length) pat repl := by
  rw [replaceAll, if_neg h.1, replaceAll, if_neg h.1]
  have hstep : replAux pat repl (c :: cs) 0
      = if pat.isPrefixOf (c :: cs) then repl ++ replAux pat repl cs (pat.length - 1)
        else c :: replAux pat repl cs 0 := rfl
  rw [hstep, if_pos h.2, replAux_drop pat repl cs (pat.length - 1)]
  have hlen : pat.length = (pat.length - 1) + 1 := by
    have := List.length_pos.mpr h.1
    omega
  rw [hlen]
  rfl

lemma replaceAll_cons_neg (c : Char) (cs pat repl : List Char)
    (h : ¬ (pat ≠ [] ∧ pat.isPrefixOf (c :: cs))) :
    replaceAll (c :: cs) pat repl = c :: replaceAll cs pat repl := by
  by_cases hpat : pat = []
  · rw [replaceAll, if_pos hpat, replaceAll, if_pos hpat]
  · have hpre : ¬ pat.isPrefixOf (c :: cs) := fun hp => h ⟨hpat, hp⟩
    rw [replaceAll, if_neg hpat, replaceAll, if_neg hpat]
    have hstep : replAux pat repl (c :: cs) 0
        = if pat.isPrefixOf (c :: cs) then repl ++ replAux pat repl cs (pat.length - 1)
          else c :: replAux pat repl cs 0 := rfl
    rw [hstep, if_neg hpre]

/-- Decidable "pat occurs somewhere in s". -/
def containsSeq (s pat : List Char) : Bool :=
  (List.range (s.length + 1)).any (fun i => pat.isPrefixOf (s.drop i))

lemma replaceAll_no_occ (pat repl : List Char) :
    ∀ s : List Char, (∀ i, ¬ (pat <+: s.drop i)) → replaceAll s pat repl = s := by
  intro s
  induction s with
  | nil => intro _; exact replaceAll_nil pat repl
  | cons c cs ih =>
    intro h
    have h0 : ¬ pat.isPrefixOf (c :: cs) := by
      rw [List.isPrefixOf_iff_prefix]
      exact h 0
    rw [replaceAll_cons_neg c cs pat repl (fun hc => h0 hc.2)]
    rw [ih (fun i => h (i + 1))]

lemma containsSeq_false_no_occ (s pat : List Char) (hpat : pat ≠ [])
    (h : containsSeq s pat = false) : ∀ i, ¬ (pat <+: s.drop i) := by
  intro i hpre
  by_cases hi : i ≤ s.length
  · have hmem : i ∈ List.range (s.length + 1) := List.mem_range.mpr (by omega)
    have hall := List.any_eq_false.mp h
    exact absurd (List.isPrefixOf_iff_prefix.mpr hpre) (by simpa using hall i hmem)
  · have hdrop : s.drop i = [] := List.drop_eq_nil_of_le (by omega)
    rw [hdrop] at hpre
    exact hpat (List.prefix_nil.mp hpre)

lemma replaceAll_first_occ (pat repl : List Char) (hpat : pat ≠ []) :
    ∀ (a b : List Char), (∀ i, i < a.length → ¬ (pat <+: (a ++ pat ++ b).drop i)) →
      replaceAll (a ++ pat ++ b) pat repl = a ++ repl ++ replaceAll b pat repl := by
  intro a
  induction a with
  | nil =>
    intro b _
    cases pat with
    | nil => exact absurd rfl hpat
    | cons p ps =>
      have hpre : (p :: ps).isPrefixOf ((p :: ps) ++ b) :=
        List.isPrefixOf_iff_prefix.mpr (List.prefix_append _ _)
      have hstep := replaceAll_cons_pos p (ps ++ b) (p :: ps) repl ⟨hpat, hpre⟩
      simp only [List.nil_append, List.cons_append] at hstep ⊢
      rw [hstep]
      have hdrop : ((p :: ps) ++ b).drop (p :: ps).length = b := List.drop_left _ _
      simp only [List.cons_append] at hdrop
      rw [hdrop]
  | cons c a' ih =>
    intro b h
    have h0 : ¬ pat <+: (c :: (a' ++ pat ++ b)) := by
      have := h 0 (by simp only [List.length_cons]; omega)
      simpa using this
    have hne : ¬ (pat ≠ [] ∧ pat.isPrefixOf (c :: (a' ++ pat ++ b))) := by
      rintro ⟨_, hp⟩
      exact h0 (List.isPrefixOf_iff_prefix.mp hp)
    have hstep := replaceAll_cons_neg c (a' ++ pat ++ b) pat repl hne
    simp only [List.cons_append] at hstep ⊢
    rw [hstep]
    have hshift : ∀ i, i < a'.length → ¬ (pat <+: (a' ++ pat ++ b).drop i) := by
      intro i hi
      have := h (i + 1) (by simp only [List.length_cons]; omega)
      simpa using this
    rw [ih b hshift]

/-- `String(undefined)`. -/
def undefinedChars : List Char := "undefined".data

/-- The template placeholder for one device/sensor pair, written in the
source as a template literal with literal braces around `deviceId.sensorId`. -/
def placeholderChars (deviceId sensorId : String) : List Char :=
  ("\x7b").data ++ deviceId.data ++ ('.' :: sensorId.data) ++ ("\x7d").data

/-- The plugin storage backing one template id (`getTemplateKeys`): the
JSON-decoded device list, the parser string, and the per-device selected
sensors with their per-sensor unit and decimals settings. -/
structure TemplateCfg where
  deviceIds : List String := []
  parserString : List Char := []
  selectedSensors : String → List String := fun _ => []
  sensorUnit : String → Option String := fun _ => none
  sensorMaxDecimals : String → Option ℕ := fun _ => none

/-- Embedding of `applyDeviceTemplate` (src/unnamed/part_001, lines
259-320).  Multi-sensor devices substitute every selected sensor's
placeholder; single-measurement devices substitute one placeholder keyed by
the stripped native id.  Numbers go through the external `siToLocal` and
`formatValue`; the Binary branch passes `device.lockState`, as the source
does. -/
def applyDeviceTemplate (env : CameraEnv) (cfg : TemplateCfg)
    (device : DeviceState) (templateString : List Char) : List Char :=
  if device.hasSensors then
    (cfg.selectedSensors device.id).foldl (fun ts sensorId =>
      let sensorData := (device.sensors.find? (fun e => e.1 = sensorId)).map Prod.snd
      let sensorUnit := cfg.sensorUnit sensorId
      let maxDecimals := (cfg.sensorMaxDecimals sensorId).getD 1
      let replaceString := placeholderChars device.id sensorId
      let unit := match sensorUnit with
        | some u => some u
        | none => sensorData.bind SensorData.unit
      let value : Option JSVal := sensorData.bind SensorData.value
      let valueChars := match value with
        | some (JSVal.num q) =>
          jsNumToChars (formatValue (env.siToLocal q unit) maxDecimals) maxDecimals
        | some (JSVal.str s) => s.data
        | none => undefinedChars
      replaceAll ts replaceString valueChars) templateString
  else
    let replaceString := placeholderChars device.id device.strippedNativeId
    let vum : Option JSVal × Option String × ℕ :=
      if device.hasThermometer then
        let maxDecimals := (cfg.sensorMaxDecimals "temperature").getD 1
        let unit := device.temperatureUnit
        let v := if unit = some "F" then device.temperature * 9 / 5 + 32
          else device.temperature
        (some (JSVal.num v), unit, maxDecimals)
      else if device.hasHumidity then
        let maxDecimals := (cfg.sensorMaxDecimals "humidity").getD 1
        (some (JSVal.num device.humidity), some "%", maxDecimals)
      else if device.hasEntry then
        (some (JSVal.str (getEntryText (OverlayData.bool device.entryOpen) env.texts)),
          none, 1)
      else if device.hasLock then
        (some (JSVal.str (getLockText (OverlayData.str device.lockState) env.texts)),
          none, 1)
      else if device.hasBinary then
        (some (JSVal.str (getBinaryText (OverlayData.str device.lockState) env.texts)),
          none, 1)
      else (none, none, 1)
    let valueChars := match vum.1 with
      | some (JSVal.num q) =>
        jsNumToChars (formatValue (env.siToLocal q vum.2.1) vum.2.2) vum.2.2
      | some (JSVal.str s) => s.data
      | none => undefinedChars
    replaceAll templateString replaceString valueChars

/-- The device loop of `updateOverlayDataFromTemplate` (src/unnamed/part_001,
lines 242-253): devices that cannot be found are logged with a warning and
skipped (`continue`); found devices are applied in order.  Returns the
final parser string together with the warned device ids. -/
def renderLoop (env : CameraEnv) (cfg : TemplateCfg) :
    List String → List Char → List Char × List String
  | [], ts => (ts, [])
  | d :: ds, ts =>
    match env.findDevice d with
    | none =>
      let r := renderLoop env cfg ds ts
      (r.1, d :: r.2)
    | some dev => renderLoop env cfg ds (applyDeviceTemplate env cfg dev ts)

/-- One template render (`updateOverlayDataFromTemplate` before its final
write): resolve every listed device against the parser string. -/
def renderTemplate (env : CameraEnv) (cfg : TemplateCfg) :
    List Char × List String :=
  renderLoop env cfg cfg.deviceIds cfg.parserString

/-- Embedding of the tail of `updateOverlayDataFromTemplate`
(src/unnamed/part_001, lines 255-256): one unconditional set-text write of
the truncated render result — there is no `sleeping` check on this path. -/
def updateOverlayDataFromTemplateWrites (env : CameraEnv) (cfg : TemplateCfg)
    (overlay : Overlay) (overlayId : String) : List Write :=
  [Write.setText overlayId
    (limitText (String.mk (renderTemplate env cfg).1) overlay.maxCharacters)]

lemma renderLoop_filter_found (env : CameraEnv) (cfg : TemplateCfg) :
    ∀ (ids : List String) (ts : List Char),
      (renderLoop env cfg ids ts).1
        = (renderLoop env cfg (ids.filter (fun d => (env.findDevice d).isSome)) ts).1 := by
  intro ids
  induction ids with
  | nil => intro ts; rfl
  | cons d ds ih =>
    intro ts
    rw [renderLoop]
    cases hd : env.findDevice d with
    | none =>
      have hf : (d :: ds).filter (fun d => (env.findDevice d).isSome)
          = ds.filter (fun d => (env.findDevice d).isSome) := by
        rw [List.filter_cons_of_neg]
        simp [hd]
      rw [hf]
      exact ih ts
    | some dev =>
      have hf : (d :: ds).filter (fun d => (env.findDevice d).isSome)
          = d :: ds.filter (fun d => (env.findDevice d).isSome) := by
        rw [List.filter_cons_of_pos]
        simp [hd]
      rw [hf, renderLoop, hd]
      exact ih _

lemma renderLoop_warns (env : CameraEnv) (cfg : TemplateCfg) :
    ∀ (ids : List String) (ts : List Char),
      (renderLoop env cfg ids ts).2
        = ids.filter (fun d => (env.findDevice d).isNone) := by
  intro ids
  induction ids with
  | nil => intro ts; rfl
  | cons d ds ih =>
    intro ts
    rw [renderLoop]
    cases hd : env.findDevice d with
    | none =>
      rw [List.filter_cons_of_pos (by simp [hd])]
      simpa using ih ts
    | some dev =>
      rw [List.filter_cons_of_neg (by simp [hd])]
      exact ih _

def exampleDevice : DeviceState :=
  { id := "d1", hasSensors := true,
    sensors := [("t1", ⟨"t1", some (JSVal.str "21.3"), none⟩),
                ("h1", ⟨"h1", some (JSVal.str "55"), none⟩)] }

def exampleEnv : CameraEnv :=
  ⟨fun d => if d = "d1" then some exampleDevice else none, fun q _ => q,
    sampleTexts⟩

def exampleTplCfg : TemplateCfg :=
  { deviceIds := ["d1", "d2"],
    parserString := ("T:\x7bd1.t1\x7d H:\x7bd1.h1\x7d X:\x7bd2.x\x7d").data,
    selectedSensors := fun d => if d = "d1" then ["t1", "h1"] else [] }

def exampleMissingCfg : TemplateCfg :=
  { deviceIds := ["d9"], parserString := "x".data }

/-- C7 -/
theorem template_render_missing_devices (env : CameraEnv) (cfg : TemplateCfg) :
    (renderTemplate env cfg).1
      = (renderLoop env cfg
          (cfg.deviceIds.filter (fun d => (env.findDevice d).isSome))
          cfg.parserString).1 ∧
    (renderTemplate env cfg).2 = cfg.deviceIds.filter (fun d => (env.findDevice d).isNone) ∧
    ((∀ d ∈ cfg.deviceIds, env.findDevice d = none) →
      (renderTemplate env cfg).1 = cfg.parserString) ∧
    (∀ s pat repl : List Char, pat ≠ [] → containsSeq s pat = false →
      replaceAll s pat repl = s) ∧
    (∀ a b pat repl : List Char, pat ≠ [] →
      (∀ i, i < a.length → ¬ (pat <+: (a ++ pat ++ b).drop i)) →
      replaceAll (a ++ pat ++ b) pat repl = a ++ repl ++ replaceAll b pat repl) ∧
    (renderTemplate exampleEnv exampleTplCfg).1
      = ("T:21.3 H:55 X:\x7bd2.x\x7d").data ∧
    (renderTemplate exampleEnv exampleTplCfg).2 = ["d2"] := by
  refine ⟨?_, ?_, ?_, ?_, ?_, by decide, by decide⟩
  · exact renderLoop_filter_found env cfg cfg.deviceIds cfg.parserString
  · exact renderLoop_warns env cfg cfg.deviceIds cfg.parserString
  · intro hall
    have hf : cfg.deviceIds.filter (fun d => (env.findDevice d).isSome) = [] := by
      rw [List.filter_eq_nil_iff]
      intro d hd
      simp [hall d hd]
    have := renderLoop_filter_found env cfg cfg.deviceIds cfg.parserString
    rw [hf] at this
    exact this
  · intro s pat repl hpat hocc
    exact replaceAll_no_occ pat repl s (containsSeq_false_no_occ s pat hpat hocc)
  · intro a b pat repl hpat h
    exact replaceAll_first_occ pat repl hpat a b h

/-- Witness -/
theorem template_render_missing_devices_witness :
    (∀ d ∈ exampleMissingCfg.deviceIds, sampleEnv.findDevice d = none) ∧
    (renderTemplate sampleEnv exampleMissingCfg).1 = exampleMissingCfg.parserString :=
  ⟨by decide,
    (template_render_missing_devices sampleEnv exampleMissingCfg).2.2.1 (by decide)⟩

/-- The `listenInterface` values used by `start` (src/unnamed/part_001,
lines 374-423): a sensor id for multi-sensor devices, a scrypted interface
otherwise. -/
inductive ListenIface
  | sensor (sensorId : String)
  | thermometer
  | humidity
  | lock
  | entry
  | binary
  | battery
  | objectDetector
deriving DecidableEq

/-- Outcome of the listener-resolution chain of `start` for one overlay:
all of (listenerType, listenInterface, deviceId) assigned; only
`listenerType` (a failed or empty sensor-id lookup leaves `listenInterface`
falsy, so the inner guard fails); or nothing assigned. -/
inductive TickPlan
  | listenData (lt : ListenerTypeE) (iface : ListenIface) (deviceId : String)
  | typeOnly (lt : ListenerTypeE)
  | nothing
deriving DecidableEq

/-- The listener-resolution chain of `start` (src/unnamed/part_001, lines
373-423). -/
def resolveTickPlan (env : CameraEnv) (selfId : String) (ov : Overlay) :
    TickPlan :=
  match ov.type with
  | some OverlayTypeE.Device =>
    match ov.device with
    | none => TickPlan.nothing
    | some d =>
      match env.findDevice d with
      | none => TickPlan.nothing
      | some rd =>
        if rd.hasSensors then
          match ov.sensorName with
          | none => TickPlan.nothing
          | some sname =>
            let sensorId := match ov.sensorId with
              | some sid => some sid
              | none => (rd.sensors.find? (fun e => e.2.name = sname)).map Prod.fst
            match sensorId with
            | some sid =>
              if sid = "" then TickPlan.typeOnly ListenerTypeE.Sensors
              else TickPlan.listenData ListenerTypeE.Sensors (ListenIface.sensor sid) d
            | none => TickPlan.typeOnly ListenerTypeE.Sensors
        else if rd.hasThermometer then
          TickPlan.listenData ListenerTypeE.Temperature ListenIface.thermometer d
        else if rd.hasHumidity then
          TickPlan.listenData ListenerTypeE.Humidity ListenIface.humidity d
        else if rd.hasLock then
          TickPlan.listenData ListenerTypeE.Lock ListenIface.lock d
        else if rd.hasEntry then
          TickPlan.listenData ListenerTypeE.Entry ListenIface.entry d
        else if rd.hasBinary then
          TickPlan.listenData ListenerTypeE.Binary ListenIface.binary d
        else TickPlan.nothing
  | some OverlayTypeE.FaceDetection =>
    TickPlan.listenData ListenerTypeE.Face ListenIface.objectDetector selfId
  | some OverlayTypeE.BatteryLeft =>
    TickPlan.listenData ListenerTypeE.Battery ListenIface.battery selfId
  | _ => TickPlan.nothing

/-- The mixin's per-tick state (src/unnamed/part_001): the owning camera's
id and sleep flag, the reported overlay ids, the per-overlay storage
(`getOverlay`), the plugin's template storage, and the stored `lastFace`. -/
structure TickState where
  selfId : String
  sleeping : Bool
  overlays : List String
  getOverlay : String → Overlay
  templateCfg : String → TemplateCfg
  lastFace : Option String

/-- The per-tick data fetch of `funct` (src/unnamed/part_001, lines
440-456) for the resolved interface.  `lastFace || '-'` treats the empty
string as falsy. -/
def fetchData (st : TickState) (rd : DeviceState) : ListenIface → OverlayData
  | ListenIface.sensor sid =>
    match rd.sensors.find? (fun e => e.1 = sid) with
    | some e => OverlayData.sensor e.2
    | none => OverlayData.undef
  | ListenIface.thermometer => OverlayData.num rd.temperature
  | ListenIface.humidity => OverlayData.num rd.humidity
  | ListenIface.lock => OverlayData.str rd.lockState
  | ListenIface.entry => OverlayData.bool rd.entryOpen
  | ListenIface.binary => OverlayData.bool rd.binaryState
  | ListenIface.battery => OverlayData.num rd.batteryLevel
  | ListenIface.objectDetector =>
    OverlayData.dets [⟨"face",
      some (match st.lastFace with
        | some s => if s = "" then "-" else s
        | none => "-")⟩]

/-- Writes issued for one overlay during a tick of the refresh interval
(`funct` in `start`, src/unnamed/part_001, lines 364-474).  All data paths
go through `updateOverlayData` (which checks `sleeping`); the Template path
goes through `updateOverlayDataFromTemplate` (which does not).  The
device-lookup `none` branch is unreachable for a consistent environment
(the plan only names devices the same environment resolved). -/
def overlayTickWrites (env : CameraEnv) (st : TickState) (overlayId : String) :
    List Write :=
  let ov := st.getOverlay overlayId
  match resolveTickPlan env st.selfId ov with
  | TickPlan.listenData lt iface deviceId =>
    match env.findDevice deviceId with
    | none => []
    | some rd =>
      updateOverlayDataWrites env st.sleeping ov overlayId (some lt)
        (fetchData st rd iface)
  | TickPlan.typeOnly _ => []
  | TickPlan.nothing =>
    match ov.type with
    | some OverlayTypeE.Text =>
      updateOverlayDataWrites env st.sleeping ov overlayId none
        (match ov.text with
          | some s => OverlayData.str s
          | none => OverlayData.undef)
    | some OverlayTypeE.Disabled =>
      updateOverlayDataWrites env st.sleeping ov overlayId none (OverlayData.str "")
    | some OverlayTypeE.Template =>
      match ov.template with
      | some t =>
        updateOverlayDataFromTemplateWrites env (st.templateCfg t) ov overlayId
      | none => []
    | _ => []

/-- All writes of one refresh tick. -/
def tickWrites (env : CameraEnv) (st : TickState) : List Write :=
  (st.overlays.map (overlayTickWrites env st)).flatten

/-- A sleeping camera with a single Template overlay bound to a template
with no devices and parser string "hello". -/
def sleepingTplState : TickState :=
  { selfId := "cam", sleeping := true, overlays := ["1"],
    getOverlay := fun _ =>
      { type := some OverlayTypeE.Template, template := some "t" },
    templateCfg := fun _ => { parserString := "hello".data },
    lastFace := none }

/-- C2 counterexample: while the owning camera reports sleeping, a template
refresh tick still issues a `setVideoTextOverlay` write
(`updateOverlayDataFromTemplate` performs no `sleeping` check). -/
theorem sleeping_template_write_counterexample :
    sleepingTplState.sleeping = true ∧
    tickWrites sampleEnv sleepingTplState = [Write.setText "1" "hello"] ∧
    tickWrites sampleEnv sleepingTplState ≠ [] := by decide

/-- C2 (amended): while the owning camera reports sleeping, every write
path through `updateOverlayData` (bound-device data, face, battery, static
text, disabled) is short-circuited, so a tick writes nothing for any
overlay whose type is not `Template`; Template overlays are rendered by
`updateOverlayDataFromTemplate`, which has no sleeping check and still
writes. -/
theorem sleeping_suppression_except_template (env : CameraEnv) (st : TickState)
    (hsleep : st.sleeping = true) :
    (∀ overlayId, overlayTickWrites env st overlayId = [] ∨
      (st.getOverlay overlayId).type = some OverlayTypeE.Template) ∧
    (∀ overlay overlayId listenerType data,
      updateOverlayDataWrites env true overlay overlayId listenerType data = []) := by
  have hupd : ∀ (overlay : Overlay) (overlayId : String)
      (listenerType : Option ListenerTypeE) (data : OverlayData),
      updateOverlayDataWrites env true overlay overlayId listenerType data = [] := by
    intro _ _ _ _
    rw [updateOverlayDataWrites, if_pos rfl]
  refine ⟨?_, hupd⟩
  intro oid
  simp only [overlayTickWrites, hsleep]
  cases hplan : resolveTickPlan env st.selfId (st.getOverlay oid) with
  | listenData lt iface deviceId =>
    left
    cases hfd : env.findDevice deviceId with
    | none => simp [hfd]
    | some rd => simp [hfd, hupd]
  | typeOnly lt => left; rfl
  | nothing =>
    cases htype : (st.getOverlay oid).type with
    | none => left; simp [htype]
    | some oty =>
      cases oty with
      | Text => left; simp [htype, hupd]
      | Disabled => left; simp [htype, hupd]
      | Template => right; rfl
      | Device => left; simp [htype]
      | FaceDetection => left; simp [htype]
      | BatteryLeft => left; simp [htype]

/-- Witness for `sleeping_suppression_except_template`. -/
theorem sleeping_suppression_except_template_witness :
    sleepingTplState.sleeping = true ∧
    (overlayTickWrites sampleEnv sleepingTplState "1" = [] ∨
      (sleepingTplState.getOverlay "1").type = some OverlayTypeE.Template) :=
  ⟨rfl, (sleeping_suppression_except_template sampleEnv sleepingTplState rfl).1 "1"⟩

/-- One entry of the mixin's `listenersMap` (`ListenersMap` in
src/src/utils.ts, lines 48-53): the listener kind, the bound device, and
the host-side handle of the event registration or interval, when present. -/
structure SubEntry where
  listenerType : ListenerTypeE
  device : Option String := none
  listener : Option ℕ := none
  interval : Option ℕ := none
deriving DecidableEq

/-- Runtime subscription state of one mixin (src/unnamed/part_000): the
`killed` flag, the host's handle counter, its live event registrations and
intervals (each handle tagged with the overlay id that created it), and
`listenersMap`. -/
structure RecState where
  killed : Bool := false
  nextHandle : ℕ := 0
  activeListeners : List (ℕ × String) := []
  activeIntervals : List (ℕ × String) := []
  listenersMap : List (String × SubEntry) := []
deriving DecidableEq

/-- The state of a freshly constructed mixin. -/
def initRecState : RecState := {}

/-- Association-list read of a JavaScript object keyed by overlay id. -/
def lookupAssoc : List (String × SubEntry) → String → Option SubEntry
  | [], _ => none
  | kv :: rest, k => if kv.1 = k then some kv.2 else lookupAssoc rest k

/-- Association-list write of a JavaScript object keyed by overlay id:
updating an existing key keeps its position, a new key is appended. -/
def setAssoc : List (String × SubEntry) → String → SubEntry → List (String × SubEntry)
  | [], k, v => [(k, v)]
  | kv :: rest, k, v =>
    if kv.1 = k then (k, v) :: rest else kv :: setAssoc rest k v

/-- Handles of the event listeners recorded in the map. -/
def mapListenerHandles (m : List (String × SubEntry)) : List ℕ :=
  m.filterMap (fun kv => kv.2.listener)

/-- Handles of the intervals recorded in the map. -/
def mapIntervalHandles (m : List (String × SubEntry)) : List ℕ :=
  m.filterMap (fun kv => kv.2.interval)

/-- Embedding of `removeListeners` (src/unnamed/part_000, lines 45-54): for
every `listenersMap` entry, remove its event listener and clear its
interval; the map itself is not cleared.  The net effect on the host is to
drop every live registration whose handle the map mentions. -/
def removeListenersV0 (st : RecState) : RecState :=
  { st with
    activeListeners := st.activeListeners.filter
      (fun hp => hp.1 ∉ mapListenerHandles st.listenersMap),
    activeIntervals := st.activeIntervals.filter
      (fun hp => hp.1 ∉ mapIntervalHandles st.listenersMap) }

/-- Embedding of `release` (src/unnamed/part_000, lines 56-59). -/
def releaseV0 (st : RecState) : RecState :=
  { removeListenersV0 st with killed := true }

/-- The per-overlay plan of `start` (src/unnamed/part_000, lines 320-366
and 420-430): register an event listener, start a template interval, or
register nothing (static/disabled/unresolvable overlays render immediately
without any subscription; a failed sensor-id lookup leaves
`listenInterface` falsy, so nothing is registered either). -/
inductive PlanV0
  | listen (lt : ListenerTypeE) (iface : ListenIface) (deviceId : String)
  | tplInterval (templateId : String)
  | nothing
deriving DecidableEq

/-- The listener-resolution chain of `start` in the part_000 revision
(src/unnamed/part_000, lines 325-366; same chain as part_001 but without a
BinarySensor branch, and Template overlays start an interval). -/
def resolvePlanV0 (env : CameraEnv) (selfId : String) (ov : Overlay) : PlanV0 :=
  match ov.type with
  | some OverlayTypeE.Device =>
    match ov.device with
    | none => PlanV0.nothing
    | some d =>
      match env.findDevice d with
      | none => PlanV0.nothing
      | some rd =>
        if rd.hasSensors then
          match ov.sensorName with
          | none => PlanV0.nothing
          | some sname =>
            let sensorId := match ov.sensorId with
              | some sid => some sid
              | none => (rd.sensors.find? (fun e => e.2.name = sname)).map Prod.fst
            match sensorId with
            | some sid =>
              if sid = "" then PlanV0.nothing
              else PlanV0.listen ListenerTypeE.Sensors (ListenIface.sensor sid) d
            | none => PlanV0.nothing
        else if rd.hasThermometer then
          PlanV0.listen ListenerTypeE.Temperature ListenIface.thermometer d
        else if rd.hasHumidity then
          PlanV0.listen ListenerTypeE.Humidity ListenIface.humidity d
        else if rd.hasLock then
          PlanV0.listen ListenerTypeE.Lock ListenIface.lock d
        else if rd.hasEntry then
          PlanV0.listen ListenerTypeE.Entry ListenIface.entry d
        else PlanV0.nothing
  | some OverlayTypeE.FaceDetection =>
    PlanV0.listen ListenerTypeE.Face ListenIface.objectDetector selfId
  | some OverlayTypeE.BatteryLeft =>
    PlanV0.listen ListenerTypeE.Battery ListenIface.battery selfId
  | some OverlayTypeE.Template =>
    match ov.template with
    | some t => PlanV0.tplInterval t
    | none => PlanV0.nothing
  | _ => PlanV0.nothing

/-- Remove a (possibly absent) handle from the host's live-registration
list: `handle && removeListener(handle)` / `clearInterval(handle)`. -/
def filterHandle (l : List (ℕ × String)) : Option ℕ → List (ℕ × String)
  | some h => l.filter (fun hp => hp.1 ≠ h)
  | none => l

/-- Lines 369-370 of src/unnamed/part_000: drop the registrations recorded
for this overlay's existing map entry, if any. -/
def dropEntryHandles (st : RecState) (oid : String) : RecState :=
  match lookupAssoc st.listenersMap oid with
  | some e =>
    { st with
      activeListeners := filterHandle st.activeListeners e.listener,
      activeIntervals := filterHandle st.activeIntervals e.interval }
  | none => st

/-- One iteration of the `start` loop (src/unnamed/part_000, lines 313-443)
restricted to its effect on subscription state: lines 369-370 drop the
handles of any existing map entry for this overlay; then a `listen` plan
registers a fresh listener and records `\x7b listenerType, device, listener \x7d`
(lines 382, 402-406), a Template plan starts a fresh interval and records
`\x7b listenerType: Interval, interval \x7d` (lines 423-430), and any other
outcome leaves the map untouched (immediate renders carry no subscription). -/
def startStepV0 (env : CameraEnv) (selfId : String) (getOv : String → Overlay)
    (st : RecState) (oid : String) : RecState :=
  let st1 := dropEntryHandles st oid
  match resolvePlanV0 env selfId (getOv oid) with
  | PlanV0.listen lt _ _ =>
    { st1 with
      nextHandle := st1.nextHandle + 1,
      activeListeners := st1.activeListeners ++ [(st1.nextHandle, oid)],
      listenersMap := setAssoc st1.listenersMap oid
        ⟨lt, (getOv oid).device, some st1.nextHandle, none⟩ }
  | PlanV0.tplInterval _ =>
    { st1 with
      nextHandle := st1.nextHandle + 1,
      activeIntervals := st1.activeIntervals ++ [(st1.nextHandle, oid)],
      listenersMap := setAssoc st1.listenersMap oid
        ⟨ListenerTypeE.Interval, none, none, some st1.nextHandle⟩ }
  | PlanV0.nothing => st1

/-- The `start` loop over the device's reported overlay ids. -/
def startV0 (env : CameraEnv) (selfId : String) (getOv : String → Overlay)
    (overlays : List String) (st : RecState) : RecState :=
  overlays.foldl (startStepV0 env selfId getOv) st

/-- One reconciliation pass: `refreshSettings` re-reads settings and then
runs `removeListeners(); start()` (src/unnamed/part_000, lines 61-82). -/
def reconcileV0 (env : CameraEnv) (selfId : String) (getOv : String → Overlay)
    (overlays : List String) (st : RecState) : RecState :=
  startV0 env selfId getOv overlays (removeListenersV0 st)

/-- Number of live event registrations tagged with one overlay id. -/
def activeListenerCountFor (st : RecState) (oid : String) : ℕ :=
  (st.activeListeners.filter (fun hp => hp.2 = oid)).length

/-- Number of live intervals tagged with one overlay id. -/
def activeIntervalCountFor (st : RecState) (oid : String) : ℕ :=
  (st.activeIntervals.filter (fun hp => hp.2 = oid)).length

/-- Whether a map entry's registration is still live on the host. -/
def entryLive (st : RecState) (oid : String) (e : SubEntry) : Bool :=
  (match e.listener with
    | some h => decide ((h, oid) ∈ st.activeListeners)
    | none => false) ||
  (match e.interval with
    | some h => decide ((h, oid) ∈ st.activeIntervals)
    | none => false)

/-- The observable active subscription of one overlay: its kind, bound
device and mechanism (event vs interval), when the recorded handle is still
live. -/
def activeSubFor (st : RecState) (oid : String) :
    Option (ListenerTypeE × Option String × Bool) :=
  match lookupAssoc st.listenersMap oid with
  | none => none
  | some e =>
    if entryLive st oid e then some (e.listenerType, e.device, e.interval.isSome)
    else none

/-- The subscription shape one reconciliation produces for one overlay. -/
def planShape (env : CameraEnv) (selfId : String) (getOv : String → Overlay)
    (oid : String) : Option (ListenerTypeE × Option String × Bool) :=
  match resolvePlanV0 env selfId (getOv oid) with
  | PlanV0.listen lt _ _ => some (lt, (getOv oid).device, false)
  | PlanV0.tplInterval _ => some (ListenerTypeE.Interval, none, true)
  | PlanV0.nothing => none

/-- Two map entries hold no common handle. -/
def HandleDisj (kv kv' : String × SubEntry) : Prop :=
  ∀ h, ¬ ((kv.2.listener = some h ∨ kv.2.interval = some h) ∧
          (kv'.2.listener = some h ∨ kv'.2.interval = some h))

/-- Invariant of reachable subscription states: map keys are unique, every
handle is below the counter, every live registration is recorded in the map
entry of its overlay, distinct map entries hold distinct handles, and the
live lists hold no duplicates. -/
def RecInv (st : RecState) : Prop :=
  (st.listenersMap.map Prod.fst).Nodup ∧
  (∀ kv ∈ st.listenersMap,
    (∀ h, kv.2.listener = some h → h < st.nextHandle) ∧
    (∀ h, kv.2.interval = some h → h < st.nextHandle)) ∧
  (∀ hp ∈ st.activeListeners, hp.1 < st.nextHandle) ∧
  (∀ hp ∈ st.activeIntervals, hp.1 < st.nextHandle) ∧
  (∀ hp ∈ st.activeListeners,
    ∃ e, lookupAssoc st.listenersMap hp.2 = some e ∧ e.listener = some hp.1) ∧
  (∀ hp ∈ st.activeIntervals,
    ∃ e, lookupAssoc st.listenersMap hp.2 = some e ∧ e.interval = some hp.1) ∧
  st.listenersMap.Pairwise HandleDisj ∧
  st.activeListeners.Nodup ∧
  st.activeIntervals.Nodup

lemma lookupAssoc_mem (m : List (String × SubEntry)) (k : String) (e : SubEntry)
    (h : lookupAssoc m k = some e) : (k, e) ∈ m := by
  induction m with
  | nil => simp [lookupAssoc] at h
  | cons kv rest ih =>
    rw [lookupAssoc] at h
    by_cases hk : kv.1 = k
    · rw [if_pos hk] at h
      obtain ⟨a, b⟩ := kv
      simp only at hk
      simp only [Option.some.injEq] at h
      subst hk
      subst h
      exact List.mem_cons_self _ _
    · rw [if_neg hk] at h
      exact List.mem_cons_of_mem _ (ih h)

lemma lookupAssoc_setAssoc_self (m : List (String × SubEntry)) (k : String)
    (v : SubEntry) : lookupAssoc (setAssoc m k v) k = some v := by
  induction m with
  | nil => simp [setAssoc, lookupAssoc]
  | cons kv rest ih =>
    rw [setAssoc]
    by_cases hk : kv.1 = k
    · rw [if_pos hk, lookupAssoc, if_pos rfl]
    · rw [if_neg hk, lookupAssoc, if_neg hk]
      exact ih

lemma lookupAssoc_setAssoc_ne (m : List (String × SubEntry)) (k k' : String)
    (v : SubEntry) (h : k' ≠ k) :
    lookupAssoc (setAssoc m k v) k' = lookupAssoc m k' := by
  induction m with
  | nil =>
    show lookupAssoc [(k, v)] k' = lookupAssoc [] k'
    simp only [lookupAssoc]
    rw [if_neg (fun hc => h hc.symm)]
  | cons kv rest ih =>
    rw [setAssoc]
    by_cases hk : kv.1 = k
    · rw [if_pos hk]
      have hL : lookupAssoc ((k, v) :: rest) k' = lookupAssoc rest k' := by
        rw [lookupAssoc, if_neg (fun hc => h hc.symm)]
      have hR : lookupAssoc (kv :: rest) k' = lookupAssoc rest k' := by
        rw [lookupAssoc, if_neg (by rw [hk]; exact fun hc => h hc.symm)]
      rw [hL, hR]
    · rw [if_neg hk]
      have hL : lookupAssoc (kv :: setAssoc rest k v) k'
          = if kv.1 = k' then some kv.2 else lookupAssoc (setAssoc rest k v) k' := by
        rw [lookupAssoc]
      have hR : lookupAssoc (kv :: rest) k'
          = if kv.1 = k' then some kv.2 else lookupAssoc rest k' := by
        rw [lookupAssoc]
      rw [hL, hR, ih]

lemma mem_setAssoc (m : List (String × SubEntry)) (k : String) (v : SubEntry) :
    ∀ kv ∈ setAssoc m k v, kv ∈ m ∨ kv = (k, v) := by
  induction m with
  | nil =>
    intro kv hkv
    simp [setAssoc] at hkv
    right
    exact hkv
  | cons kv0 rest ih =>
    intro kv hkv
    rw [setAssoc] at hkv
    by_cases hk : kv0.1 = k
    · rw [if_pos hk] at hkv
      rcases List.mem_cons.mp hkv with h | h
      · right; exact h
      · left; exact List.mem_cons_of_mem _ h
    · rw [if_neg hk] at hkv
      rcases List.mem_cons.mp hkv with h | h
      · left
        rw [h]
        exact List.mem_cons_self _ _
      · rcases ih kv h with h' | h'
        · left; exact List.mem_cons_of_mem _ h'
        · right; exact h'

lemma mem_keys_setAssoc (m : List (String × SubEntry)) (k : String) (v : SubEntry) :
    ∀ x ∈ (setAssoc m k v).map Prod.fst, x ∈ m.map Prod.fst ∨ x = k := by
  intro x hx
  rcases List.mem_map.mp hx with ⟨kv, hkv, hxeq⟩
  rcases mem_setAssoc m k v kv hkv with h | h
  · left; exact hxeq ▸ List.mem_map_of_mem Prod.fst h
  · right; rw [← hxeq, h]

lemma setAssoc_keys_nodup (m : List (String × SubEntry)) (k : String)
    (v : SubEntry) (h : (m.map Prod.fst).Nodup) :
    ((setAssoc m k v).map Prod.fst).Nodup := by
  induction m with
  | nil => simp [setAssoc]
  | cons kv rest ih =>
    rw [List.map_cons, List.nodup_cons] at h
    obtain ⟨hnot, hrest⟩ := h
    rw [setAssoc]
    by_cases hk : kv.1 = k
    · rw [if_pos hk]
      rw [List.map_cons, List.nodup_cons]
      exact ⟨by rw [← hk]; exact hnot, hrest⟩
    · rw [if_neg hk]
      rw [List.map_cons, List.nodup_cons]
      refine ⟨?_, ih hrest⟩
      intro hc
      rcases mem_keys_setAssoc rest k v kv.1 hc with h' | h'
      · exact hnot h'
      · exact hk h'

lemma mem_of_mem_filterHandle (l : List (ℕ × String)) (o : Option ℕ) :
    ∀ hp ∈ filterHandle l o, hp ∈ l := by
  intro hp hmem
  cases o with
  | none => exact hmem
  | some h => exact List.mem_of_mem_filter hmem

lemma nodup_filterHandle (l : List (ℕ × String)) (o : Option ℕ)
    (h : l.Nodup) : (filterHandle l o).Nodup := by
  cases o with
  | none => exact h
  | some h0 => exact h.filter _

lemma not_mem_filterHandle_self (l : List (ℕ × String)) (h0 : ℕ) (x : String) :
    (h0, x) ∉ filterHandle l (some h0) := by
  intro hmem
  have := List.of_mem_filter hmem
  simp at this

lemma mem_filterHandle_of_ne (l : List (ℕ × String)) (o : Option ℕ)
    (hp : ℕ × String) (hne : ∀ h, o = some h → hp.1 ≠ h) :
    hp ∈ filterHandle l o ↔ hp ∈ l := by
  cases o with
  | none => exact Iff.rfl
  | some h =>
    constructor
    · exact List.mem_of_mem_filter
    · intro hmem
      exact List.mem_filter.mpr ⟨hmem, by simpa using hne h rfl⟩

lemma dropEntry_eq_none (st : RecState) (oid : String)
    (hq : lookupAssoc st.listenersMap oid = none) :
    dropEntryHandles st oid = st := by
  rw [dropEntryHandles, hq]

lemma dropEntry_eq_some (st : RecState) (oid : String) (e : SubEntry)
    (hq : lookupAssoc st.listenersMap oid = some e) :
    dropEntryHandles st oid =
      { st with
        activeListeners := filterHandle st.activeListeners e.listener,
        activeIntervals := filterHandle st.activeIntervals e.interval } := by
  rw [dropEntryHandles, hq]

lemma dropEntry_map (st : RecState) (oid : String) :
    (dropEntryHandles st oid).listenersMap = st.listenersMap := by
  cases hq : lookupAssoc st.listenersMap oid with
  | none => rw [dropEntry_eq_none st oid hq]
  | some e => rw [dropEntry_eq_some st oid e hq]

lemma dropEntry_nextHandle (st : RecState) (oid : String) :
    (dropEntryHandles st oid).nextHandle = st.nextHandle := by
  cases hq : lookupAssoc st.listenersMap oid with
  | none => rw [dropEntry_eq_none st oid hq]
  | some e => rw [dropEntry_eq_some st oid e hq]

lemma dropEntry_subL (st : RecState) (oid : String) :
    ∀ hp ∈ (dropEntryHandles st oid).activeListeners, hp ∈ st.activeListeners := by
  intro hp hmem
  cases hq : lookupAssoc st.listenersMap oid with
  | none =>
    rw [dropEntry_eq_none st oid hq] at hmem
    exact hmem
  | some e =>
    rw [dropEntry_eq_some st oid e hq] at hmem
    exact mem_of_mem_filterHandle _ _ hp hmem

lemma dropEntry_subI (st : RecState) (oid : String) :
    ∀ hp ∈ (dropEntryHandles st oid).activeIntervals, hp ∈ st.activeIntervals := by
  intro hp hmem
  cases hq : lookupAssoc st.listenersMap oid with
  | none =>
    rw [dropEntry_eq_none st oid hq] at hmem
    exact hmem
  | some e =>
    rw [dropEntry_eq_some st oid e hq] at hmem
    exact mem_of_mem_filterHandle _ _ hp hmem

lemma mem_mapListenerHandles (m : List (String × SubEntry)) (k : String)
    (e : SubEntry) (h0 : ℕ) (hl : lookupAssoc m k = some e)
    (hh : e.listener = some h0) : h0 ∈ mapListenerHandles m :=
  List.mem_filterMap.mpr ⟨(k, e), lookupAssoc_mem m k e hl, hh⟩

lemma mem_mapIntervalHandles (m : List (String × SubEntry)) (k : String)
    (e : SubEntry) (h0 : ℕ) (hl : lookupAssoc m k = some e)
    (hh : e.interval = some h0) : h0 ∈ mapIntervalHandles m :=
  List.mem_filterMap.mpr ⟨(k, e), lookupAssoc_mem m k e hl, hh⟩

lemma recInv_removeListeners (st : RecState) (h : RecInv st) :
    RecInv (removeListenersV0 st) := by
  obtain ⟨h1, h2, h3, h4, h5, h6, h7, h8, h9⟩ := h
  refine ⟨h1, h2, ?_, ?_, ?_, ?_, h7, ?_, ?_⟩
  · intro hp hmem
    exact h3 hp (List.mem_of_mem_filter hmem)
  · intro hp hmem
    exact h4 hp (List.mem_of_mem_filter hmem)
  · intro hp hmem
    exact h5 hp (List.mem_of_mem_filter hmem)
  · intro hp hmem
    exact h6 hp (List.mem_of_mem_filter hmem)
  · exact h8.filter _
  · exact h9.filter _

lemma removeListeners_clears (st : RecState) (h : RecInv st) :
    (removeListenersV0 st).activeListeners = [] ∧
    (removeListenersV0 st).activeIntervals = [] := by
  obtain ⟨_, _, _, _, h5, h6, _, _, _⟩ := h
  constructor
  · apply List.filter_eq_nil_iff.mpr
    intro hp hmem
    obtain ⟨e, hl, hh⟩ := h5 hp hmem
    simp only [decide_not, Bool.not_eq_true', decide_eq_false_iff_not, not_not]
    exact mem_mapListenerHandles _ _ _ _ hl hh
  · apply List.filter_eq_nil_iff.mpr
    intro hp hmem
    obtain ⟨e, hl, hh⟩ := h6 hp hmem
    simp only [decide_not, Bool.not_eq_true', decide_eq_false_iff_not, not_not]
    exact mem_mapIntervalHandles _ _ _ _ hl hh

lemma recInv_dropEntry (st : RecState) (oid : String) (h : RecInv st) :
    RecInv (dropEntryHandles st oid) := by
  obtain ⟨h1, h2, h3, h4, h5, h6, h7, h8, h9⟩ := h
  refine ⟨?_, ?_, ?_, ?_, ?_, ?_, ?_, ?_, ?_⟩
  · rw [dropEntry_map]; exact h1
  · rw [dropEntry_map, dropEntry_nextHandle]; exact h2
  · rw [dropEntry_nextHandle]
    intro hp hmem
    exact h3 hp (dropEntry_subL st oid hp hmem)
  · rw [dropEntry_nextHandle]
    intro hp hmem
    exact h4 hp (dropEntry_subI st oid hp hmem)
  · rw [dropEntry_map]
    intro hp hmem
    exact h5 hp (dropEntry_subL st oid hp hmem)
  · rw [dropEntry_map]
    intro hp hmem
    exact h6 hp (dropEntry_subI st oid hp hmem)
  · rw [dropEntry_map]; exact h7
  · cases hq : lookupAssoc st.listenersMap oid with
    | none => rw [dropEntry_eq_none st oid hq]; exact h8
    | some e =>
      rw [dropEntry_eq_some st oid e hq]
      exact nodup_filterHandle _ _ h8
  · cases hq : lookupAssoc st.listenersMap oid with
    | none => rw [dropEntry_eq_none st oid hq]; exact h9
    | some e =>
      rw [dropEntry_eq_some st oid e hq]
      exact nodup_filterHandle _ _ h9

lemma dropEntry_no_oidL (st : RecState) (oid : String) (h : RecInv st) :
    ∀ hp ∈ (dropEntryHandles st oid).activeListeners, hp.2 ≠ oid := by
  have h5 := h.2.2.2.2.1
  intro hp hmem heq
  have hmem0 := dropEntry_subL st oid hp hmem
  obtain ⟨e, hl, hh⟩ := h5 hp hmem0
  rw [heq] at hl
  rw [dropEntry_eq_some st oid e hl] at hmem
  simp only at hmem
  rw [hh] at hmem
  obtain ⟨h1, h2⟩ := hp
  simp only at heq hh
  subst heq
  exact not_mem_filterHandle_self _ _ _ (by simpa [hh] using hmem)

lemma dropEntry_no_oidI (st : RecState) (oid : String) (h : RecInv st) :
    ∀ hp ∈ (dropEntryHandles st oid).activeIntervals, hp.2 ≠ oid := by
  have h6 := h.2.2.2.2.2.1
  intro hp hmem heq
  have hmem0 := dropEntry_subI st oid hp hmem
  obtain ⟨e, hl, hh⟩ := h6 hp hmem0
  rw [heq] at hl
  rw [dropEntry_eq_some st oid e hl] at hmem
  simp only at hmem
  rw [hh] at hmem
  obtain ⟨h1, h2⟩ := hp
  simp only at heq hh
  subst heq
  exact not_mem_filterHandle_self _ _ _ (by simpa [hh] using hmem)

lemma handleDisj_symm : Symmetric HandleDisj := by
  intro kv kv' h h0 hc
  exact h h0 ⟨hc.2, hc.1⟩

lemma setAssoc_pairwise (m : List (String × SubEntry)) (k : String)
    (v : SubEntry) (hkeys : (m.map Prod.fst).Nodup)
    (hpw : m.Pairwise HandleDisj)
    (hnew : ∀ kv ∈ m, HandleDisj (k, v) kv) :
    (setAssoc m k v).Pairwise HandleDisj := by
  induction m with
  | nil => simp [setAssoc]
  | cons kv0 rest ih =>
    rw [List.map_cons, List.nodup_cons] at hkeys
    obtain ⟨hk0, hkeys'⟩ := hkeys
    rcases List.pairwise_cons.mp hpw with ⟨hkv0, hrest⟩
    rw [setAssoc]
    by_cases hk : kv0.1 = k
    · rw [if_pos hk]
      refine List.pairwise_cons.mpr ⟨?_, hrest⟩
      intro kv' hkv'
      exact hnew kv' (List.mem_cons_of_mem _ hkv')
    · rw [if_neg hk]
      refine List.pairwise_cons.mpr ⟨?_, ?_⟩
      · intro kv' hkv'
        rcases mem_setAssoc rest k v kv' hkv' with h' | h'
        · exact hkv0 kv' h'
        · rw [h']
          exact handleDisj_symm (hnew kv0 (List.mem_cons_self _ _))
      · exact ih hkeys' hrest (fun kv hkv => hnew kv (List.mem_cons_of_mem _ hkv))

lemma recInv_handles_distinct (st : RecState) (h : RecInv st)
    (k1 k2 : String) (e1 e2 : SubEntry)
    (h1 : lookupAssoc st.listenersMap k1 = some e1)
    (h2 : lookupAssoc st.listenersMap k2 = some e2)
    (hne : k1 ≠ k2) : HandleDisj (k1, e1) (k2, e2) := by
  have hm1 := lookupAssoc_mem _ _ _ h1
  have hm2 := lookupAssoc_mem _ _ _ h2
  have hpw := h.2.2.2.2.2.2.1
  have hforall := List.Pairwise.forall handleDisj_symm hpw
  exact hforall hm1 hm2 (fun hc => hne (congrArg Prod.fst hc))

lemma recInv_regListener (s : RecState) (oid : String) (lt : ListenerTypeE)
    (dev : Option String) (h : RecInv s)
    (hnoL : ∀ hp ∈ s.activeListeners, hp.2 ≠ oid)
    (hnoI : ∀ hp ∈ s.activeIntervals, hp.2 ≠ oid) :
    RecInv { s with
      nextHandle := s.nextHandle + 1,
      activeListeners := s.activeListeners ++ [(s.nextHandle, oid)],
      listenersMap := setAssoc s.listenersMap oid
        ⟨lt, dev, some s.nextHandle, none⟩ } := by
  obtain ⟨h1, h2, h3, h4, h5, h6, h7, h8, h9⟩ := h
  refine ⟨?_, ?_, ?_, ?_, ?_, ?_, ?_, ?_, ?_⟩
  · exact setAssoc_keys_nodup _ _ _ h1
  · intro kv hkv
    rcases mem_setAssoc _ _ _ kv hkv with hm | hm
    · obtain ⟨hbl, hbi⟩ := h2 kv hm
      exact ⟨fun h0 hh => Nat.lt_succ_of_lt (hbl h0 hh),
        fun h0 hh => Nat.lt_succ_of_lt (hbi h0 hh)⟩
    · subst hm
      refine ⟨fun h0 hh => ?_, fun h0 hh => ?_⟩
      · simp only [Option.some.injEq] at hh
        show h0 < s.nextHandle + 1
        omega
      · exact absurd hh (by simp)
  · intro hp hmem
    rcases List.mem_append.mp hmem with hm | hm
    · exact Nat.lt_succ_of_lt (h3 hp hm)
    · rw [List.mem_singleton.mp hm]
      exact Nat.lt_succ_self _
  · intro hp hmem
    exact Nat.lt_succ_of_lt (h4 hp hmem)
  · intro hp hmem
    rcases List.mem_append.mp hmem with hm | hm
    · obtain ⟨e, hl, hh⟩ := h5 hp hm
      refine ⟨e, ?_, hh⟩
      rw [lookupAssoc_setAssoc_ne _ _ _ _ (hnoL hp hm)]
      exact hl
    · rw [List.mem_singleton.mp hm]
      exact ⟨_, lookupAssoc_setAssoc_self _ _ _, rfl⟩
  · intro hp hmem
    obtain ⟨e, hl, hh⟩ := h6 hp hmem
    refine ⟨e, ?_, hh⟩
    rw [lookupAssoc_setAssoc_ne _ _ _ _ (hnoI hp hmem)]
    exact hl
  · refine setAssoc_pairwise _ _ _ h1 h7 ?_
    intro kv hkv h0 hc
    obtain ⟨ha, hb⟩ := hc
    have h0eq : h0 = s.nextHandle := by
      rcases ha with ha | ha
      · simpa using ha.symm
      · exact absurd ha (by simp)
    subst h0eq
    obtain ⟨hbl, hbi⟩ := h2 kv hkv
    rcases hb with hb | hb
    · exact absurd (hbl _ hb) (by omega)
    · exact absurd (hbi _ hb) (by omega)
  · refine List.Nodup.append h8 (List.nodup_singleton _) ?_
    intro a ha hb
    rw [List.mem_singleton.mp hb] at ha
    exact absurd (h3 _ ha) (by omega)
  · exact h9

lemma recInv_regInterval (s : RecState) (oid : String) (h : RecInv s)
    (hnoL : ∀ hp ∈ s.activeListeners, hp.2 ≠ oid)
    (hnoI : ∀ hp ∈ s.activeIntervals, hp.2 ≠ oid) :
    RecInv { s with
      nextHandle := s.nextHandle + 1,
      activeIntervals := s.activeIntervals ++ [(s.nextHandle, oid)],
      listenersMap := setAssoc s.listenersMap oid
        ⟨ListenerTypeE.Interval, none, none, some s.nextHandle⟩ } := by
  obtain ⟨h1, h2, h3, h4, h5, h6, h7, h8, h9⟩ := h
  refine ⟨?_, ?_, ?_, ?_, ?_, ?_, ?_, ?_, ?_⟩
  · exact setAssoc_keys_nodup _ _ _ h1
  · intro kv hkv
    rcases mem_setAssoc _ _ _ kv hkv with hm | hm
    · obtain ⟨hbl, hbi⟩ := h2 kv hm
      exact ⟨fun h0 hh => Nat.lt_succ_of_lt (hbl h0 hh),
        fun h0 hh => Nat.lt_succ_of_lt (hbi h0 hh)⟩
    · subst hm
      refine ⟨fun h0 hh => ?_, fun h0 hh => ?_⟩
      · exact absurd hh (by simp)
      · simp only [Option.some.injEq] at hh
        show h0 < s.nextHandle + 1
        omega
  · intro hp hmem
    exact Nat.lt_succ_of_lt (h3 hp hmem)
  · intro hp hmem
    rcases List.mem_append.mp hmem with hm | hm
    · exact Nat.lt_succ_of_lt (h4 hp hm)
    · rw [List.mem_singleton.mp hm]
      exact Nat.lt_succ_self _
  · intro hp hmem
    obtain ⟨e, hl, hh⟩ := h5 hp hmem
    refine ⟨e, ?_, hh⟩
    rw [lookupAssoc_setAssoc_ne _ _ _ _ (hnoL hp hmem)]
    exact hl
  · intro hp hmem
    rcases List.mem_append.mp hmem with hm | hm
    · obtain ⟨e, hl, hh⟩ := h6 hp hm
      refine ⟨e, ?_, hh⟩
      rw [lookupAssoc_setAssoc_ne _ _ _ _ (hnoI hp hm)]
      exact hl
    · rw [List.mem_singleton.mp hm]
      exact ⟨_, lookupAssoc_setAssoc_self _ _ _, rfl⟩
  · refine setAssoc_pairwise _ _ _ h1 h7 ?_
    intro kv hkv h0 hc
    obtain ⟨ha, hb⟩ := hc
    have h0eq : h0 = s.nextHandle := by
      rcases ha with ha | ha
      · exact absurd ha (by simp)
      · simpa using ha.symm
    subst h0eq
    obtain ⟨hbl, hbi⟩ := h2 kv hkv
    rcases hb with hb | hb
    · exact absurd (hbl _ hb) (by omega)
    · exact absurd (hbi _ hb) (by omega)
  · exact h8
  · refine List.Nodup.append h9 (List.nodup_singleton _) ?_
    intro a ha hb
    rw [List.mem_singleton.mp hb] at ha
    exact absurd (h4 _ ha) (by omega)

lemma recInv_startStep (env : CameraEnv) (selfId : String)
    (getOv : String → Overlay) (st : RecState) (oid : String) (h : RecInv st) :
    RecInv (startStepV0 env selfId getOv st oid) := by
  have hinv1 := recInv_dropEntry st oid h
  have hnoL := dropEntry_no_oidL st oid h
  have hnoI := dropEntry_no_oidI st oid h
  simp only [startStepV0]
  cases resolvePlanV0 env selfId (getOv oid) with
  | listen lt iface d => exact recInv_regListener _ _ _ _ hinv1 hnoL hnoI
  | tplInterval t => exact recInv_regInterval _ _ hinv1 hnoL hnoI
  | nothing => exact hinv1

lemma recInv_startV0 (env : CameraEnv) (selfId : String)
    (getOv : String → Overlay) :
    ∀ (overlays : List String) (st : RecState), RecInv st →
      RecInv (startV0 env selfId getOv overlays st) := by
  intro overlays
  induction overlays with
  | nil => intro st h; exact h
  | cons o rest ih =>
    intro st h
    exact ih _ (recInv_startStep env selfId getOv st o h)

lemma recInv_init : RecInv initRecState := by
  refine ⟨?_, ?_, ?_, ?_, ?_, ?_, ?_, ?_, ?_⟩ <;> simp [initRecState, lookupAssoc]

lemma activeSubFor_no_actives (st : RecState) (hL : st.activeListeners = [])
    (hI : st.activeIntervals = []) (oid : String) :
    activeSubFor st oid = none := by
  rw [activeSubFor]
  cases hq : lookupAssoc st.listenersMap oid with
  | none => rfl
  | some e =>
    simp only
    have hlive : entryLive st oid e = false := by
      rw [entryLive, hL, hI]
      cases e.listener <;> cases e.interval <;> simp
    rw [hlive]
    simp

lemma startStep_activeSub_self (env : CameraEnv) (selfId : String)
    (getOv : String → Overlay) (st : RecState) (oid : String) :
    activeSubFor (startStepV0 env selfId getOv st oid) oid
      = planShape env selfId getOv oid := by
  simp only [startStepV0, planShape]
  cases resolvePlanV0 env selfId (getOv oid) with
  | listen lt iface d =>
    have hl : lookupAssoc
        (setAssoc (dropEntryHandles st oid).listenersMap oid
          ⟨lt, (getOv oid).device, some (dropEntryHandles st oid).nextHandle, none⟩)
        oid
        = some ⟨lt, (getOv oid).device,
            some (dropEntryHandles st oid).nextHandle, none⟩ :=
      lookupAssoc_setAssoc_self _ _ _
    rw [activeSubFor]
    rw [show (({ dropEntryHandles st oid with
        nextHandle := (dropEntryHandles st oid).nextHandle + 1,
        activeListeners := (dropEntryHandles st oid).activeListeners
          ++ [((dropEntryHandles st oid).nextHandle, oid)],
        listenersMap := setAssoc (dropEntryHandles st oid).listenersMap oid
          ⟨lt, (getOv oid).device, some (dropEntryHandles st oid).nextHandle, none⟩ }
        : RecState).listenersMap)
      = setAssoc (dropEntryHandles st oid).listenersMap oid
          ⟨lt, (getOv oid).device, some (dropEntryHandles st oid).nextHandle, none⟩
      from rfl]
    rw [hl]
    simp only [entryLive]
    simp [List.mem_append]
  | tplInterval t =>
    have hl : lookupAssoc
        (setAssoc (dropEntryHandles st oid).listenersMap oid
          ⟨ListenerTypeE.Interval, none, none,
            some (dropEntryHandles st oid).nextHandle⟩) oid
        = some ⟨ListenerTypeE.Interval, none, none,
            some (dropEntryHandles st oid).nextHandle⟩ :=
      lookupAssoc_setAssoc_self _ _ _
    rw [activeSubFor]
    rw [show (({ dropEntryHandles st oid with
        nextHandle := (dropEntryHandles st oid).nextHandle + 1,
        activeIntervals := (dropEntryHandles st oid).activeIntervals
          ++ [((dropEntryHandles st oid).nextHandle, oid)],
        listenersMap := setAssoc (dropEntryHandles st oid).listenersMap oid
          ⟨ListenerTypeE.Interval, none, none,
            some (dropEntryHandles st oid).nextHandle⟩ }
        : RecState).listenersMap)
      = setAssoc (dropEntryHandles st oid).listenersMap oid
          ⟨ListenerTypeE.Interval, none, none,
            some (dropEntryHandles st oid).nextHandle⟩
      from rfl]
    rw [hl]
    simp only [entryLive]
    simp [List.mem_append]
  | nothing =>
    rw [activeSubFor]
    cases hq : lookupAssoc st.listenersMap oid with
    | none =>
      rw [show (dropEntryHandles st oid).listenersMap = st.listenersMap
        from dropEntry_map st oid, hq]
    | some e =>
      rw [show (dropEntryHandles st oid).listenersMap = st.listenersMap
        from dropEntry_map st oid, hq]
      simp only
      have hlive : entryLive (dropEntryHandles st oid) oid e = false := by
        rw [entryLive]
        rw [dropEntry_eq_some st oid e hq]
        have hLmem : ∀ h0, e.listener = some h0 →
            ((h0, oid) ∈ filterHandle st.activeListeners e.listener) = False := by
          intro h0 hh
          rw [hh]
          simp only [eq_iff_iff, iff_false]
          exact not_mem_filterHandle_self _ _ _
        have hImem : ∀ h0, e.interval = some h0 →
            ((h0, oid) ∈ filterHandle st.activeIntervals e.interval) = False := by
          intro h0 hh
          rw [hh]
          simp only [eq_iff_iff, iff_false]
          exact not_mem_filterHandle_self _ _ _
        cases hel : e.listener with
        | none =>
          cases hei : e.interval with
          | none => simp
          | some h0 =>
            have := hImem h0 hei
            rw [hei] at this
            simp [this]
        | some h0 =>
          have hthis := hLmem h0 hel
          rw [hel] at hthis
          cases hei : e.interval with
          | none => simp [hthis]
          | some h1 =>
            have hthat := hImem h1 hei
            rw [hei] at hthat
            simp [hthis, hthat]
      rw [hlive]
      simp

lemma entryLive_eq_of_mem_iff (st st' : RecState) (oid : String) (e : SubEntry)
    (hL : ∀ h0 : ℕ, ((h0, oid) ∈ st'.activeListeners) ↔ ((h0, oid) ∈ st.activeListeners))
    (hI : ∀ h0 : ℕ, ((h0, oid) ∈ st'.activeIntervals) ↔ ((h0, oid) ∈ st.activeIntervals)) :
    entryLive st' oid e = entryLive st oid e := by
  rw [entryLive, entryLive]
  cases e.listener <;> cases e.interval <;>
    simp only [decide_eq_decide.mpr (hL _), decide_eq_decide.mpr (hI _)]

lemma dropEntry_activeSub_ne (st : RecState) (o oid' : String) (h : RecInv st)
    (hne : oid' ≠ o) :
    activeSubFor (dropEntryHandles st o) oid' = activeSubFor st oid' := by
  have h5 := h.2.2.2.2.1
  have h6 := h.2.2.2.2.2.1
  cases hq : lookupAssoc st.listenersMap o with
  | none => rw [dropEntry_eq_none st o hq]
  | some e0 =>
    rw [activeSubFor, activeSubFor, dropEntry_map]
    cases hq' : lookupAssoc st.listenersMap oid' with
    | none => rfl
    | some e =>
      simp only
      have hdisj := recInv_handles_distinct st h oid' o e e0 hq' hq hne
      have hlive : entryLive (dropEntryHandles st o) oid' e = entryLive st oid' e := by
        apply entryLive_eq_of_mem_iff
        · intro h0
          rw [dropEntry_eq_some st o e0 hq]
          show ((h0, oid') ∈ filterHandle st.activeListeners e0.listener)
            ↔ ((h0, oid') ∈ st.activeListeners)
          constructor
          · exact mem_of_mem_filterHandle _ _ _
          · intro hm
            obtain ⟨e', hl', hh'⟩ := h5 (h0, oid') hm
            rw [hq'] at hl'
            obtain rfl : e = e' := by injection hl'
            rw [mem_filterHandle_of_ne]
            · exact hm
            · intro h1 hh1 heq
              simp only at heq
              subst heq
              exact hdisj h0 ⟨Or.inl hh', Or.inl hh1⟩
        · intro h0
          rw [dropEntry_eq_some st o e0 hq]
          show ((h0, oid') ∈ filterHandle st.activeIntervals e0.interval)
            ↔ ((h0, oid') ∈ st.activeIntervals)
          constructor
          · exact mem_of_mem_filterHandle _ _ _
          · intro hm
            obtain ⟨e', hl', hh'⟩ := h6 (h0, oid') hm
            rw [hq'] at hl'
            obtain rfl : e = e' := by injection hl'
            rw [mem_filterHandle_of_ne]
            · exact hm
            · intro h1 hh1 heq
              simp only at heq
              subst heq
              exact hdisj h0 ⟨Or.inr hh', Or.inr hh1⟩
      rw [hlive]

lemma activeSubFor_regListener_ne (s : RecState) (o oid' : String)
    (lt : ListenerTypeE) (dev : Option String) (hne : oid' ≠ o) :
    activeSubFor
      { s with
        nextHandle := s.nextHandle + 1,
        activeListeners := s.activeListeners ++ [(s.nextHandle, o)],
        listenersMap := setAssoc s.listenersMap o ⟨lt, dev, some s.nextHandle, none⟩ }
      oid'
      = activeSubFor s oid' := by
  rw [activeSubFor, activeSubFor]
  rw [show ({ s with
        nextHandle := s.nextHandle + 1,
        activeListeners := s.activeListeners ++ [(s.nextHandle, o)],
        listenersMap := setAssoc s.listenersMap o
          ⟨lt, dev, some s.nextHandle, none⟩ } : RecState).listenersMap
      = setAssoc s.listenersMap o ⟨lt, dev, some s.nextHandle, none⟩ from rfl]
  rw [lookupAssoc_setAssoc_ne _ _ _ _ hne]
  cases lookupAssoc s.listenersMap oid' with
  | none => rfl
  | some e =>
    simp only
    have hlive : entryLive
        { s with
          nextHandle := s.nextHandle + 1,
          activeListeners := s.activeListeners ++ [(s.nextHandle, o)],
          listenersMap := setAssoc s.listenersMap o
            ⟨lt, dev, some s.nextHandle, none⟩ } oid' e
        = entryLive s oid' e := by
      apply entryLive_eq_of_mem_iff
      · intro h0
        show ((h0, oid') ∈ s.activeListeners ++ [(s.nextHandle, o)])
          ↔ ((h0, oid') ∈ s.activeListeners)
        rw [List.mem_append, List.mem_singleton]
        constructor
        · intro hm
          rcases hm with hm | hm
          · exact hm
          · exact absurd (congrArg Prod.snd hm) hne
        · exact Or.inl
      · intro h0
        exact Iff.rfl
    rw [hlive]

lemma activeSubFor_regInterval_ne (s : RecState) (o oid' : String)
    (hne : oid' ≠ o) :
    activeSubFor
      { s with
        nextHandle := s.nextHandle + 1,
        activeIntervals := s.activeIntervals ++ [(s.nextHandle, o)],
        listenersMap := setAssoc s.listenersMap o
          ⟨ListenerTypeE.Interval, none, none, some s.nextHandle⟩ }
      oid'
      = activeSubFor s oid' := by
  rw [activeSubFor, activeSubFor]
  rw [show ({ s with
        nextHandle := s.nextHandle + 1,
        activeIntervals := s.activeIntervals ++ [(s.nextHandle, o)],
        listenersMap := setAssoc s.listenersMap o
          ⟨ListenerTypeE.Interval, none, none, some s.nextHandle⟩ } : RecState).listenersMap
      = setAssoc s.listenersMap o
          ⟨ListenerTypeE.Interval, none, none, some s.nextHandle⟩ from rfl]
  rw [lookupAssoc_setAssoc_ne _ _ _ _ hne]
  cases lookupAssoc s.listenersMap oid' with
  | none => rfl
  | some e =>
    simp only
    have hlive : entryLive
        { s with
          nextHandle := s.nextHandle + 1,
          activeIntervals := s.activeIntervals ++ [(s.nextHandle, o)],
          listenersMap := setAssoc s.listenersMap o
            ⟨ListenerTypeE.Interval, none, none, some s.nextHandle⟩ } oid' e
        = entryLive s oid' e := by
      apply entryLive_eq_of_mem_iff
      · intro h0
        exact Iff.rfl
      · intro h0
        show ((h0, oid') ∈ s.activeIntervals ++ [(s.nextHandle, o)])
          ↔ ((h0, oid') ∈ s.activeIntervals)
        rw [List.mem_append, List.mem_singleton]
        constructor
        · intro hm
          rcases hm with hm | hm
          · exact hm
          · exact absurd (congrArg Prod.snd hm) hne
        · exact Or.inl
    rw [hlive]

lemma startStep_activeSub_ne (env : CameraEnv) (selfId : String)
    (getOv : String → Overlay) (st : RecState) (o oid' : String)
    (h : RecInv st) (hne : oid' ≠ o) :
    activeSubFor (startStepV0 env selfId getOv st o) oid'
      = activeSubFor st oid' := by
  have hdE := dropEntry_activeSub_ne st o oid' h hne
  simp only [startStepV0]
  cases resolvePlanV0 env selfId (getOv o) with
  | nothing => exact hdE
  | listen lt iface d =>
    rw [activeSubFor_regListener_ne _ _ _ _ _ hne]
    exact hdE
  | tplInterval t =>
    rw [activeSubFor_regInterval_ne _ _ _ hne]
    exact hdE

lemma startV0_activeSub (env : CameraEnv) (selfId : String)
    (getOv : String → Overlay) (todo : List String) :
    ∀ st : RecState, RecInv st → todo.Nodup → ∀ oid : String,
      activeSubFor (startV0 env selfId getOv todo st) oid
        = if oid ∈ todo then planShape env selfId getOv oid
          else activeSubFor st oid := by
  induction todo with
  | nil =>
    intro st h hnd oid
    simp [startV0]
  | cons a rest ih =>
    intro st h hnd oid
    have hstep : startV0 env selfId getOv (a :: rest) st
        = startV0 env selfId getOv rest (startStepV0 env selfId getOv st a) := rfl
    have hinv' : RecInv (startStepV0 env selfId getOv st a) :=
      recInv_startStep env selfId getOv st a h
    have hrest : rest.Nodup := (List.nodup_cons.mp hnd).2
    have hanot : a ∉ rest := (List.nodup_cons.mp hnd).1
    rw [hstep, ih _ hinv' hrest oid]
    by_cases hmem : oid ∈ rest
    · rw [if_pos hmem, if_pos (List.mem_cons.mpr (Or.inr hmem))]
    · rw [if_neg hmem]
      by_cases heq : oid = a
      · subst heq
        rw [if_pos (List.mem_cons.mpr (Or.inl rfl))]
        exact startStep_activeSub_self env selfId getOv st oid
      · rw [if_neg (by simp [List.mem_cons, heq, hmem])]
        exact startStep_activeSub_ne env selfId getOv st a oid h heq

lemma length_le_one_of_nodup_of_all_eq {α : Type} (l : List α) (hnd : l.Nodup)
    (hall : ∀ x ∈ l, ∀ y ∈ l, x = y) : l.length ≤ 1 := by
  cases l with
  | nil => simp
  | cons x xs =>
    cases xs with
    | nil => simp
    | cons y ys =>
      exfalso
      have hxy : x = y := hall x (by simp) y (by simp)
      rw [List.nodup_cons] at hnd
      exact hnd.1 (by rw [hxy]; exact List.mem_cons_self y ys)

lemma recInv_listenerCount (st : RecState) (h : RecInv st) (oid : String) :
    activeListenerCountFor st oid ≤ 1 := by
  rw [activeListenerCountFor]
  apply length_le_one_of_nodup_of_all_eq
  · exact h.2.2.2.2.2.2.2.1.filter _
  · intro x hx y hy
    rw [List.mem_filter] at hx hy
    obtain ⟨hx1, hx2⟩ := hx
    obtain ⟨hy1, hy2⟩ := hy
    have hx2' : x.2 = oid := by simpa using hx2
    have hy2' : y.2 = oid := by simpa using hy2
    obtain ⟨ex, hlx, hhx⟩ := h.2.2.2.2.1 x hx1
    obtain ⟨ey, hly, hhy⟩ := h.2.2.2.2.1 y hy1
    rw [hx2'] at hlx
    rw [hy2'] at hly
    rw [hlx] at hly
    obtain rfl : ex = ey := by injection hly
    have hx1y1 : x.1 = y.1 := by
      rw [hhx] at hhy
      injection hhy
    obtain ⟨x1, x2⟩ := x
    obtain ⟨y1, y2⟩ := y
    simp only at hx2' hy2' hx1y1
    rw [hx2', hy2', hx1y1]

lemma recInv_intervalCount (st : RecState) (h : RecInv st) (oid : String) :
    activeIntervalCountFor st oid ≤ 1 := by
  rw [activeIntervalCountFor]
  apply length_le_one_of_nodup_of_all_eq
  · exact h.2.2.2.2.2.2.2.2.filter _
  · intro x hx y hy
    rw [List.mem_filter] at hx hy
    obtain ⟨hx1, hx2⟩ := hx
    obtain ⟨hy1, hy2⟩ := hy
    have hx2' : x.2 = oid := by simpa using hx2
    have hy2' : y.2 = oid := by simpa using hy2
    obtain ⟨ex, hlx, hhx⟩ := h.2.2.2.2.2.1 x hx1
    obtain ⟨ey, hly, hhy⟩ := h.2.2.2.2.2.1 y hy1
    rw [hx2'] at hlx
    rw [hy2'] at hly
    rw [hlx] at hly
    obtain rfl : ex = ey := by injection hly
    have hx1y1 : x.1 = y.1 := by
      rw [hhx] at hhy
      injection hhy
    obtain ⟨x1, x2⟩ := x
    obtain ⟨y1, y2⟩ := y
    simp only at hx2' hy2' hx1y1
    rw [hx2', hy2', hx1y1]

lemma recInv_release (st : RecState) (h : RecInv st) : RecInv (releaseV0 st) :=
  recInv_removeListeners st h

/-- The states a mixin's subscription bookkeeping can reach: the fresh
state, a `refreshSettings` pass (`removeListeners(); start()`), or a
`release`. -/
inductive ReachableV0 (env : CameraEnv) (selfId : String)
    (getOv : String → Overlay) (overlays : List String) : RecState → Prop
  | init : ReachableV0 env selfId getOv overlays initRecState
  | reconcile (st : RecState) (h : ReachableV0 env selfId getOv overlays st) :
      ReachableV0 env selfId getOv overlays
        (reconcileV0 env selfId getOv overlays st)
  | rel (st : RecState) (h : ReachableV0 env selfId getOv overlays st) :
      ReachableV0 env selfId getOv overlays (releaseV0 st)

lemma recInv_reachable (env : CameraEnv) (selfId : String)
    (getOv : String → Overlay) (overlays : List String) (st : RecState)
    (h : ReachableV0 env selfId getOv overlays st) : RecInv st := by
  induction h with
  | init => exact recInv_init
  | reconcile st' _ ih =>
    exact recInv_startV0 env selfId getOv overlays _
      (recInv_removeListeners st' ih)
  | rel st' _ ih => exact recInv_release st' ih

lemma reconcile_activeSub (env : CameraEnv) (selfId : String)
    (getOv : String → Overlay) (overlays : List String) (st : RecState)
    (h : RecInv st) (hnd : overlays.Nodup) (oid : String) :
    activeSubFor (reconcileV0 env selfId getOv overlays st) oid
      = if oid ∈ overlays then planShape env selfId getOv oid else none := by
  rw [reconcileV0]
  rw [startV0_activeSub env selfId getOv overlays _
      (recInv_removeListeners st h) hnd oid]
  by_cases hmem : oid ∈ overlays
  · rw [if_pos hmem, if_pos hmem]
  · rw [if_neg hmem, if_neg hmem]
    obtain ⟨hL, hI⟩ := removeListeners_clears st h
    exact activeSubFor_no_actives _ hL hI oid

lemma releaseV0_eq_self (s : RecState) (hk : s.killed = true)
    (hL : s.activeListeners = []) (hI : s.activeIntervals = []) :
    releaseV0 s = s := by
  obtain ⟨k, nh, aL, aI, m⟩ := s
  simp only at hk hL hI
  subst hk
  subst hL
  subst hI
  rfl

/-- A Template overlay, the kind whose reconciliation starts an interval. -/
def sampleTplOverlay : Overlay :=
  { type := some OverlayTypeE.Template, template := some "t1" }

/-- C3: rerunning reconciliation (`refreshSettings`, i.e.
`removeListeners(); start()`) with an unchanged configuration leaves every
overlay's active subscription exactly as after the first run, and after a
run every overlay id owns at most one live event listener and at most one
live interval — never duplicate registrations. -/
theorem reconcile_idempotent (env : CameraEnv) (selfId : String)
    (getOv : String → Overlay) (overlays : List String) (st : RecState)
    (oid : String)
    (hreach : ReachableV0 env selfId getOv overlays st)
    (hnodup : overlays.Nodup) :
    activeSubFor
        (reconcileV0 env selfId getOv overlays
          (reconcileV0 env selfId getOv overlays st)) oid
      = activeSubFor (reconcileV0 env selfId getOv overlays st) oid ∧
    activeListenerCountFor (reconcileV0 env selfId getOv overlays st) oid ≤ 1 ∧
    activeIntervalCountFor (reconcileV0 env selfId getOv overlays st) oid ≤ 1 := by
  have h1 : RecInv st := recInv_reachable env selfId getOv overlays st hreach
  have h2 : RecInv (reconcileV0 env selfId getOv overlays st) :=
    recInv_reachable env selfId getOv overlays _ (ReachableV0.reconcile st hreach)
  refine ⟨?_, recInv_listenerCount _ h2 oid, recInv_intervalCount _ h2 oid⟩
  rw [reconcile_activeSub env selfId getOv overlays _ h2 hnodup oid,
      reconcile_activeSub env selfId getOv overlays st h1 hnodup oid]

theorem reconcile_idempotent_witness :
    (["1"] : List String).Nodup ∧
    (activeSubFor
        (reconcileV0 sampleEnv "cam" (fun _ => sampleTplOverlay) ["1"]
          (reconcileV0 sampleEnv "cam" (fun _ => sampleTplOverlay) ["1"]
            initRecState)) "1"
      = activeSubFor
          (reconcileV0 sampleEnv "cam" (fun _ => sampleTplOverlay) ["1"]
            initRecState) "1" ∧
    activeListenerCountFor
        (reconcileV0 sampleEnv "cam" (fun _ => sampleTplOverlay) ["1"]
          initRecState) "1" ≤ 1 ∧
    activeIntervalCountFor
        (reconcileV0 sampleEnv "cam" (fun _ => sampleTplOverlay) ["1"]
          initRecState) "1" ≤ 1) :=
  ⟨by simp,
   reconcile_idempotent sampleEnv "cam" (fun _ => sampleTplOverlay) ["1"]
     initRecState "1" ReachableV0.init (by simp)⟩

/-- C4: after `release` runs, every event listener and every interval the
mixin had registered is gone from the host — zero remain live — and
running the teardown a second time returns the state unchanged. -/
theorem release_teardown (env : CameraEnv) (selfId : String)
    (getOv : String → Overlay) (overlays : List String) (st : RecState)
    (hreach : ReachableV0 env selfId getOv overlays st) :
    (releaseV0 st).activeListeners = [] ∧
    (releaseV0 st).activeIntervals = [] ∧
    releaseV0 (releaseV0 st) = releaseV0 st := by
  have h : RecInv st := recInv_reachable env selfId getOv overlays st hreach
  obtain ⟨hL, hI⟩ := removeListeners_clears st h
  have hL' : (releaseV0 st).activeListeners = [] := hL
  have hI' : (releaseV0 st).activeIntervals = [] := hI
  exact ⟨hL', hI', releaseV0_eq_self (releaseV0 st) rfl hL' hI'⟩

theorem release_teardown_witness :
    (releaseV0 (reconcileV0 sampleEnv "cam" (fun _ => sampleTplOverlay) ["1"]
        initRecState)).activeListeners = [] ∧
    (releaseV0 (reconcileV0 sampleEnv "cam" (fun _ => sampleTplOverlay) ["1"]
        initRecState)).activeIntervals = [] ∧
    releaseV0 (releaseV0 (reconcileV0 sampleEnv "cam"
        (fun _ => sampleTplOverlay) ["1"] initRecState))
      = releaseV0 (reconcileV0 sampleEnv "cam" (fun _ => sampleTplOverlay)
          ["1"] initRecState) :=
  release_teardown sampleEnv "cam" (fun _ => sampleTplOverlay) ["1"]
    (reconcileV0 sampleEnv "cam" (fun _ => sampleTplOverlay) ["1"] initRecState)
    (ReachableV0.reconcile initRecState ReachableV0.init)

end OsdManager
